import Mathlib

/-!
Shallow embedding of the rivnefurniture-lab backend backtesting engine
(src/scripts/backtest2.py and src/contabo-scripts/backtest_stocks.py),
together with theorems settling the frozen claims about it.

Conventions of the embedding:
* Prices, amounts and balances are rationals (the Python floats, modelled
  exactly); timestamps are rationals measured in minutes.
* A pandas row is a finite mapping from column names to cell values; a cell
  is a number, a string, or the float NaN.  Missing cells are `none`.
* Python dicts keyed by symbol / trade id are association lists with
  first-match lookup; `updAssoc` is item assignment, `delAssoc` is removal,
  which models setting the active-trade slot to `None` (all reads in the
  source only distinguish "present and not None").
* Config fields carry the values after the payload normalisation done at
  the top of `run_backtest` (`trading_fee` and `minimal_profit` already
  divided by 100; `reinvest_profit`, `risk_reduction`, `price_deviation`,
  `stop_loss_value`, `target_profit` still in percent, divided at use
  sites, exactly as in the source).
-/

namespace Backtest

/-- A cell value of a dataframe row: a number, a string, or float NaN
(pandas null for numeric columns).  A missing column is `Option.none`
one level up. -/
inductive Val where
  | num (q : ℚ)
  | str (s : String)
  | nan
deriving DecidableEq, Repr

/-- Python truthiness of a cell value: `0` and `""` are falsy, NaN is
truthy. -/
def Val.truthy : Val → Bool
  | .num q => q ≠ 0
  | .str s => s ≠ ""
  | .nan => true

/-- Truthiness of an optional cell (`not row[col]` in the source); a
missing cell is falsy. -/
def truthyCell : Option Val → Bool
  | some v => v.truthy
  | none => false

/-- `row_val < value` for a numeric threshold: false on NaN and on
non-numeric cells (a NaN comparison is always false in Python). -/
def vlt : Val → ℚ → Bool
  | .num q, v => q < v
  | _, _ => false

/-- `row_val > value` for a numeric threshold. -/
def vgt : Val → ℚ → Bool
  | .num q, v => q > v
  | _, _ => false

/-- `row_val <= value` for a numeric threshold. -/
def vle : Val → ℚ → Bool
  | .num q, v => q ≤ v
  | _, _ => false

/-- `row_val >= value` for a numeric threshold. -/
def vge : Val → ℚ → Bool
  | .num q, v => q ≥ v
  | _, _ => false

/-- Cell-to-cell `<`; false whenever either side is NaN or non-numeric. -/
def v2lt : Val → Val → Bool
  | .num a, .num b => a < b
  | _, _ => false

/-- Cell-to-cell `>`. -/
def v2gt : Val → Val → Bool
  | .num a, .num b => a > b
  | _, _ => false

/-- Cell-to-cell `<=`. -/
def v2le : Val → Val → Bool
  | .num a, .num b => a ≤ b
  | _, _ => false

/-- Cell-to-cell `>=`. -/
def v2ge : Val → Val → Bool
  | .num a, .num b => a ≥ b
  | _, _ => false

/-- The numeric content of a cell, with a default for strings/NaN. -/
def Val.toRatD (d : ℚ) : Val → ℚ
  | .num q => q
  | _ => d

section Assoc

variable {α : Type} {β : Type} [DecidableEq α]

/-- First-match lookup in an association list (a Python dict read). -/
def getAssoc : List (α × β) → α → Option β
  | [], _ => none
  | (k', v) :: rest, k => if k' = k then some v else getAssoc rest k

/-- Item assignment in an association list: replaces the first binding of
the key, or appends a new binding. -/
def updAssoc : List (α × β) → α → β → List (α × β)
  | [], k, v => [(k, v)]
  | (k', v') :: rest, k, v =>
    if k' = k then (k, v) :: rest else (k', v') :: updAssoc rest k v

/-- Removal of the first binding of a key (models resetting a dict slot
to `None`: every read in the source only asks "present and not None"). -/
def delAssoc : List (α × β) → α → List (α × β)
  | [], _ => []
  | (k', v') :: rest, k => if k' = k then rest else (k', v') :: delAssoc rest k

end Assoc

/-- A value of a condition subfield: a JSON string or a JSON number. -/
inductive SubVal where
  | s (v : String)
  | n (q : ℚ)
deriving DecidableEq, Repr

/-- Rendering a subfield into a column-name fragment, as Python f-string
interpolation renders the JSON value (integers print without a decimal
point). -/
def SubVal.render : SubVal → String
  | .s v => v
  | .n q => if q.den = 1 then toString q.num else toString q

/-- One predicate of a condition list: an indicator family name plus its
subfields dict. -/
structure Cond where
  indicator : String
  subfields : List (String × SubVal)
deriving DecidableEq, Repr

/-- `subs.get(key, None)` restricted to string values. -/
def Cond.subStr (c : Cond) (k : String) : Option String :=
  match getAssoc c.subfields k with
  | some (.s v) => some v
  | _ => none

/-- `subs.get(key, None)` restricted to numeric values. -/
def Cond.subNum (c : Cond) (k : String) : Option ℚ :=
  match getAssoc c.subfields k with
  | some (.n q) => some q
  | _ => none

/-- `f"{subs.get(key, default)}"`: the rendered subfield, or the rendered
default when the key is absent. -/
def Cond.subRender (c : Cond) (k : String) (d : String) : String :=
  match getAssoc c.subfields k with
  | some v => v.render
  | none => d

/-- One merged-dataframe row as seen by the simulation kernel: the always
present base fields plus the remaining loaded columns as cells. -/
structure Row where
  ts : ℚ
  symbol : String
  close : ℚ
  dailyVolUsdt : ℚ
  cells : List (String × Val)
deriving DecidableEq, Repr

/-- Column read on a row; the base `close` field doubles as the `close`
column. -/
def Row.get (r : Row) (c : String) : Option Val :=
  if c = "close" then some (.num r.close) else getAssoc r.cells c

/-- Numeric column read with a default. -/
def Row.getNumD (r : Row) (c : String) (d : ℚ) : ℚ :=
  match r.get c with
  | some (.num q) => q
  | _ => d

/-- `TIMEFRAME_TO_MINUTES.get(tf, 1)` (the `get_tf_priority` helper). -/
def getTfPriority (tf : String) : ℤ :=
  match tf with
  | "1m" => 1
  | "5m" => 5
  | "15m" => 15
  | "30m" => 30
  | "1h" => 60
  | "2h" => 120
  | "4h" => 240
  | "1d" => 1440
  | _ => 1

/-- `get_highest_timeframe`: the condition timeframe with the largest
minute count, defaulting to "1m". -/
def getHighestTimeframe (conds : List Cond) : String :=
  conds.foldl
    (fun h c =>
      let tf := (c.subStr "Timeframe").getD "1m"
      if getTfPriority tf > getTfPriority h then tf else h)
    "1m"

/-- Suffixing of a column name by a non-base timeframe tag, crypto base
"1m". -/
def tfSuffix (col tf : String) : String :=
  if tf = "1m" then col else col ++ "_" ++ tf

/-- The per-timeframe close-mirror column consulted by the crypto
evaluator's gate (`tf_mapping` in `check_all_user_conditions` of
backtest2.py).  An unmapped timeframe has no column. -/
def cryptoTfCloseCol (tf : String) : Option String :=
  match tf with
  | "1m" => some "close"
  | "5m" => some "close_5m"
  | "15m" => some "close_15m"
  | "1h" => some "close_1h"
  | "4h" => some "close_4h"
  | "1d" => some "close_1d"
  | _ => none

/-- Comma splitting of a preset string (`str.split(',')` in Python),
written by structural recursion over the character list. -/
def splitCommaChars : List Char → List (List Char)
  | [] => [[]]
  | ch :: rest =>
    let r := splitCommaChars rest
    if ch = ',' then [] :: r
    else
      match r with
      | [] => [[ch]]
      | g :: gs => (ch :: g) :: gs

/-- `preset.split(',')`. -/
def splitOnComma (s : String) : List String :=
  (splitCommaChars s.data).map fun cs => String.mk cs

/-- The MACD main and signal column names derived from the preset, or
`none` when the preset does not split into three parts. -/
def macdCols (preset tf : String) (base : String) : Option (String × String) :=
  match splitOnComma preset with
  | [f, s, g] =>
    let mainName := "MACD_" ++ f ++ "_" ++ s ++ "_" ++ g
    let signalName := mainName ++ "_Signal"
    if tf = base then some (mainName, signalName)
    else some (mainName ++ "_" ++ tf, signalName ++ "_" ++ tf)
  | _ => none

/-- The Stochastic K and D column names derived from the preset. -/
def stochCols (preset tf : String) (base : String) : Option (String × String) :=
  match splitOnComma preset with
  | [k, ksm, dsm] =>
    let kCol := "Stochastic_K_" ++ k ++ "_" ++ ksm
    let dCol := "Stochastic_D_" ++ k ++ "_" ++ ksm ++ "_" ++ dsm
    if tf = base then some (kCol, dCol)
    else some (kCol ++ "_" ++ tf, dCol ++ "_" ++ tf)
  | _ => none

/-- The ParabolicSAR column name derived from the preset. -/
def psarCol (preset tf : String) (base : String) : Option String :=
  match splitOnComma preset with
  | [step, mx] =>
    let col := "PSAR_AF_" ++ step ++ "_Max_" ++ mx
    if tf = base then some col else some (col ++ "_" ++ tf)
  | _ => none

/-- TradingView-rating synonym match: `row_val in synonyms.get(value,
{value})`. -/
def tvMatch (desired actual : String) : Bool :=
  match desired with
  | "Buy" => actual = "Buy" ∨ actual = "Strong Buy"
  | "Strong Buy" => actual = "Strong Buy"
  | "Sell" => actual = "Sell" ∨ actual = "Strong Sell"
  | "Strong Sell" => actual = "Strong Sell"
  | "Neutral" => actual = "Neutral"
  | _ => actual = desired

/-- One condition of the crypto evaluator (the body of the `for cond`
loop of `check_all_user_conditions` in backtest2.py): `true` means the
condition does not fail the conjunction. -/
def checkCond (row : Row) (prevRow : Option Row) (cond : Cond) : Bool :=
  let tf := (cond.subStr "Timeframe").getD "1m"
  match cryptoTfCloseCol tf with
  | none => false
  | some gateCol =>
    if ¬ truthyCell (row.get gateCol) then false
    else
      let op := (cond.subStr "Condition").getD ""
      let value := getAssoc cond.subfields "Signal Value"
      match cond.indicator with
      | "RSI" =>
        let col := tfSuffix ("RSI_" ++ cond.subRender "RSI Length" "14") tf
        match row.get col with
        | none => false
        | some rv =>
          match op with
          | "Less Than" =>
            match value with
            | some (.n v) => vlt rv v
            | _ => false
          | "Greater Than" =>
            match value with
            | some (.n v) => vgt rv v
            | _ => false
          | "Crossing Down" =>
            match value, prevRow with
            | some (.n v), some pr =>
              match pr.get col with
              | some pv => vge pv v && vlt rv v
              | none => false
            | _, _ => false
          | "Crossing Up" =>
            match value, prevRow with
            | some (.n v), some pr =>
              match pr.get col with
              | some pv => vle pv v && vgt rv v
              | none => false
            | _, _ => false
          | _ =>
            match value, rv with
            | some (.s sv), .str rs => rs = sv
            | _, _ => false
      | "TradingView" =>
        let col := tfSuffix "tv_tech_label" tf
        match row.get col with
        | none => false
        | some rv =>
          match value, rv with
          | some (.s sv), .str rs => tvMatch sv rs
          | some (.n nv), .num rq => rq = nv
          | _, _ => false
      | "HeikenAshi" =>
        let col := tfSuffix "HA_Close" tf
        match row.get col with
        | none => false
        | some rv =>
          match op with
          | "Greater Than" =>
            match value with
            | some (.n v) => vgt rv v
            | _ => false
          | "Less Than" =>
            match value with
            | some (.n v) => vlt rv v
            | _ => false
          | _ => true
      | "MA" =>
        let maType := (cond.subStr "MA Type").getD "SMA"
        let colFast := tfSuffix (maType ++ "_" ++ cond.subRender "Fast MA" "14") tf
        let colSlow := tfSuffix (maType ++ "_" ++ cond.subRender "Slow MA" "28") tf
        match row.get colFast, row.get colSlow with
        | some vf, some vs =>
          match op with
          | "Less Than" => v2lt vf vs
          | "Greater Than" => v2gt vf vs
          | "Crossing Down" =>
            match prevRow with
            | some pr =>
              match pr.get colFast, pr.get colSlow with
              | some pf, some ps => v2ge pf ps && v2lt vf vs
              | _, _ => false
            | none => false
          | "Crossing Up" =>
            match prevRow with
            | some pr =>
              match pr.get colFast, pr.get colSlow with
              | some pf, some ps => v2le pf ps && v2gt vf vs
              | _, _ => false
            | none => false
          | _ => false
        | _, _ => false
      | "BollingerBands" =>
        let col := tfSuffix
          ("BB_%B_" ++ cond.subRender "BB% Period" "20" ++ "_" ++
            cond.subRender "Deviation" "2") tf
        match row.get col with
        | none => false
        | some rv =>
          match op with
          | "Less Than" =>
            match value with
            | some (.n v) => vlt rv v
            | _ => false
          | "Greater Than" =>
            match value with
            | some (.n v) => vgt rv v
            | _ => false
          | "Crossing Down" =>
            match value, prevRow with
            | some (.n v), some pr =>
              match pr.get col with
              | some pv => vge pv v && vlt rv v
              | none => false
            | _, _ => false
          | "Crossing Up" =>
            match value, prevRow with
            | some (.n v), some pr =>
              match pr.get col with
              | some pv => vle pv v && vgt rv v
              | none => false
            | _, _ => false
          | _ => false
      | "MACD" =>
        match macdCols (cond.subRender "MACD Preset" "12,26,9") tf "1m" with
        | none => false
        | some (mainName, signalName) =>
          match row.get mainName, row.get signalName with
          | some mainVal, some signalVal =>
            let triggerOK :=
              match (cond.subStr "MACD Trigger").getD "" with
              | "Crossing Up" =>
                match prevRow with
                | some pr =>
                  match pr.get mainName, pr.get signalName with
                  | some pm, some pg => v2le pm pg && v2gt mainVal signalVal
                  | _, _ => false
                | none => false
              | "Crossing Down" =>
                match prevRow with
                | some pr =>
                  match pr.get mainName, pr.get signalName with
                  | some pm, some pg => v2ge pm pg && v2lt mainVal signalVal
                  | _, _ => false
                | none => false
              | _ => true
            let lineOK :=
              match (cond.subStr "Line Trigger").getD "" with
              | "Less Than 0" => ¬ vge mainVal 0
              | "Greater Than 0" => ¬ vle mainVal 0
              | _ => true
            triggerOK && lineOK
          | _, _ => false
      | "Stochastic" =>
        match stochCols (cond.subRender "Stochastic Preset" "14,3,3") tf "1m" with
        | none => false
        | some (kCol, dCol) =>
          match row.get kCol with
          | none => false
          | some kVal =>
            let dVal := row.get dCol
            let kSig := cond.subNum "K Signal Value"
            let kCondOK :=
              match (cond.subStr "K Condition").getD "" with
              | "Less Than" =>
                match kSig with
                | some v => vlt kVal v
                | none => false
              | "Greater Than" =>
                match kSig with
                | some v => vgt kVal v
                | none => false
              | "Crossing Down" =>
                match prevRow, kSig with
                | some pr, some v =>
                  match pr.get kCol with
                  | some pk => vge pk v && vlt kVal v
                  | none => false
                | _, _ => false
              | "Crossing Up" =>
                match prevRow, kSig with
                | some pr, some v =>
                  match pr.get kCol with
                  | some pk => vle pk v && vgt kVal v
                  | none => false
                | _, _ => false
              | _ => true
            let mainOK :=
              match op with
              | "K Crossing Up D" =>
                match prevRow, dVal with
                | some pr, some dv =>
                  match pr.get kCol, pr.get dCol with
                  | some pk, some pd => v2le pk pd && v2gt kVal dv
                  | _, _ => false
                | _, _ => false
              | "K Crossing Down D" =>
                match prevRow, dVal with
                | some pr, some dv =>
                  match pr.get kCol, pr.get dCol with
                  | some pk, some pd => v2ge pk pd && v2lt kVal dv
                  | _, _ => false
                | _, _ => false
              | _ => true
            kCondOK && mainOK
      | "ParabolicSAR" =>
        match psarCol (cond.subRender "PSAR Preset" "0.02,0.2") tf "1m" with
        | none => false
        | some col =>
          match row.get col with
          | none => false
          | some rv =>
            if op = "Crossing (Long)" ∨ op = "Crossing (Short)" then
              match prevRow with
              | none => false
              | some pr =>
                match pr.get col, row.get "close", pr.get "close" with
                | some pv, some closeNow, some closePrev =>
                  if op = "Crossing (Long)" then
                    v2le closePrev pv && v2gt closeNow rv
                  else
                    v2ge closePrev pv && v2lt closeNow rv
                | _, _, _ => false
            else
              match op with
              | "Less Than" =>
                match value with
                | some (.n v) => vlt rv v
                | _ => false
              | "Greater Than" =>
                match value with
                | some (.n v) => vgt rv v
                | _ => false
              | _ => false
      | _ => false

/-- `check_all_user_conditions` of backtest2.py: an empty list is true,
otherwise every condition must pass. -/
def checkAllUserConditions (row : Row) (conds : List Cond)
    (prevRow : Option Row) : Bool :=
  conds.all (checkCond row prevRow)

namespace Stocks

/-- `row_val is None or pd.isna(row_val)` of the stocks evaluator. -/
def nullish : Option Val → Bool
  | none => true
  | some .nan => true
  | some _ => false

/-- The `tf_mapping` of the stocks evaluator: the bar-close flag column of
a timeframe, defined only for 1h, 4h and 1d. -/
def stocksTfBarCol (tf : String) : Option String :=
  match tf with
  | "1h" => some "Bar_Close_1h"
  | "4h" => some "Bar_Close_4h"
  | "1d" => some "Bar_Close_1d"
  | _ => none

/-- The stocks evaluator's gate (`bar_close_col and bar_close_col in row
and not row[bar_close_col]`): fails only when the timeframe has a mapped
flag column, the column is present on the row, and its value is falsy. -/
def stocksGateFails (row : Row) (tf : String) : Bool :=
  match stocksTfBarCol tf with
  | some bc =>
    match row.get bc with
    | some v => ¬ v.truthy
    | none => false
  | none => false

/-- Suffixing of a column name by a non-base timeframe tag, stocks base
"1h". -/
def tfSuffixH (col tf : String) : String :=
  if tf = "1h" then col else col ++ "_" ++ tf

/-- One condition of the stocks evaluator (the body of the `for cond`
loop of `check_all_user_conditions` in backtest_stocks.py). -/
def checkCond (row : Row) (prevRow : Option Row) (cond : Cond) : Bool :=
  let tf := (cond.subStr "Timeframe").getD "1h"
  if stocksGateFails row tf then false
  else
    let op := (cond.subStr "Condition").getD ""
    let value := getAssoc cond.subfields "Signal Value"
    match cond.indicator with
    | "RSI" =>
      let col := tfSuffixH ("RSI_" ++ cond.subRender "RSI Length" "14") tf
      let rv? := row.get col
      if nullish rv? then false
      else
        match rv? with
        | none => false
        | some rv =>
          match op with
          | "Less Than" =>
            match value with
            | some (.n v) => vlt rv v
            | _ => false
          | "Greater Than" =>
            match value with
            | some (.n v) => vgt rv v
            | _ => false
          | "Crossing Down" =>
            match value, prevRow with
            | some (.n v), some pr =>
              match pr.get col with
              | some pv => vge pv v && vlt rv v
              | none => false
            | _, _ => false
          | "Crossing Up" =>
            match value, prevRow with
            | some (.n v), some pr =>
              match pr.get col with
              | some pv => vle pv v && vgt rv v
              | none => false
            | _, _ => false
          | _ => true
    | "MA" =>
      let maType := (cond.subStr "MA Type").getD "SMA"
      let colFast := tfSuffixH (maType ++ "_" ++ cond.subRender "Fast MA" "14") tf
      let colSlow := tfSuffixH (maType ++ "_" ++ cond.subRender "Slow MA" "28") tf
      let vf? := row.get colFast
      let vs? := row.get colSlow
      if nullish vf? ∨ nullish vs? then false
      else
        match vf?, vs? with
        | some vf, some vs =>
          match op with
          | "Less Than" => v2lt vf vs
          | "Greater Than" => v2gt vf vs
          | "Crossing Down" =>
            match prevRow with
            | some pr =>
              match pr.get colFast, pr.get colSlow with
              | some pf, some ps => v2ge pf ps && v2lt vf vs
              | _, _ => false
            | none => false
          | "Crossing Up" =>
            match prevRow with
            | some pr =>
              match pr.get colFast, pr.get colSlow with
              | some pf, some ps => v2le pf ps && v2gt vf vs
              | _, _ => false
            | none => false
          | _ => true
        | _, _ => false
    | "BollingerBands" =>
      let col := tfSuffixH
        ("BB_%B_" ++ cond.subRender "BB% Period" "20" ++ "_" ++
          cond.subRender "Deviation" "2") tf
      let rv? := row.get col
      if nullish rv? then false
      else
        match rv? with
        | none => false
        | some rv =>
          match op with
          | "Less Than" =>
            match value with
            | some (.n v) => vlt rv v
            | _ => false
          | "Greater Than" =>
            match value with
            | some (.n v) => vgt rv v
            | _ => false
          | _ => true
    | "MACD" =>
      match macdCols (cond.subRender "MACD Preset" "12,26,9") tf "1h" with
      | none => false
      | some (mainName, signalName) =>
        let mv? := row.get mainName
        let sv? := row.get signalName
        if nullish mv? ∨ nullish sv? then false
        else
          match mv?, sv? with
          | some mainVal, some signalVal =>
            match (cond.subStr "MACD Trigger").getD "" with
            | "Crossing Up" =>
              match prevRow with
              | some pr =>
                match pr.get mainName, pr.get signalName with
                | some pm, some pg => v2le pm pg && v2gt mainVal signalVal
                | _, _ => false
              | none => false
            | "Crossing Down" =>
              match prevRow with
              | some pr =>
                match pr.get mainName, pr.get signalName with
                | some pm, some pg => v2ge pm pg && v2lt mainVal signalVal
                | _, _ => false
              | none => false
            | _ => true
          | _, _ => false
    | "Stochastic" =>
      match stochCols (cond.subRender "Stochastic Preset" "14,3,3") tf "1h" with
      | none => false
      | some (kCol, _dCol) =>
        let kv? := row.get kCol
        if nullish kv? then false
        else
          match kv? with
          | none => false
          | some kVal =>
            let kSig := cond.subNum "K Signal Value"
            match (cond.subStr "K Condition").getD "" with
            | "Less Than" =>
              match kSig with
              | some v => vlt kVal v
              | none => false
            | "Greater Than" =>
              match kSig with
              | some v => vgt kVal v
              | none => false
            | _ => true
    | "ParabolicSAR" =>
      match psarCol (cond.subRender "PSAR Preset" "0.02,0.2") tf "1h" with
      | none => false
      | some col =>
        let rv? := row.get col
        if nullish rv? then false
        else
          match rv?, row.get "close" with
          | some rv, some closeNow =>
            if op = "Crossing (Long)" ∨ op = "Crossing (Short)" then
              match prevRow with
              | none => false
              | some pr =>
                match pr.get col, pr.get "close" with
                | some pv, some closePrev =>
                  if op = "Crossing (Long)" then
                    v2le closePrev pv && v2gt closeNow rv
                  else
                    v2ge closePrev pv && v2lt closeNow rv
                | _, _ => false
            else true
          | _, _ => false
    | _ => false

/-- `check_all_user_conditions` of backtest_stocks.py. -/
def checkAllUserConditions (row : Row) (conds : List Cond)
    (prevRow : Option Row) : Bool :=
  conds.all (checkCond row prevRow)

end Stocks

/-! ## The simulation kernel (first pass of `run_backtest`, backtest2.py) -/

/-- The backtest configuration after the payload normalisation at the top
of `run_backtest` (`trading_fee` and `minimal_profit` already divided by
100, the other percentages still raw). -/
structure Config where
  maxActiveDeals : ℤ
  initialBalance : ℚ
  tradingFee : ℚ
  baseOrderSize : ℚ
  safetyOrderSize : ℚ
  riskReduction : ℚ
  reinvestProfit : ℚ
  closeDealAfterTimeout : ℚ
  entryConditions : List Cond
  exitConditions : List Cond
  safetyConditions : List Cond
  safetyOrderToggle : Bool
  priceDeviation : ℚ
  maxSafetyOrders : ℤ
  safetyStepScale : ℚ
  safetyVolScale : ℚ
  stopLossToggle : Bool
  stopLossValue : ℚ
  priceChangeActive : Bool
  targetProfit : ℚ
  takeProfitType : String
  conditionsActive : Bool
  minprofToggle : Bool
  minimalProfit : ℚ
  minDailyVolume : ℚ
  cooldown : ℚ
  stopLossTimeout : ℚ

/-- `dev_frac`. -/
def Config.devFrac (c : Config) : ℚ :=
  if c.safetyOrderToggle ∧ c.maxSafetyOrders > 0 then c.priceDeviation / 100 else 0

/-- `sl_frac`. -/
def Config.slFrac (c : Config) : ℚ :=
  if c.stopLossToggle ∧ c.stopLossValue > 0 then c.stopLossValue / 100 else 0

/-- `tp_frac`. -/
def Config.tpFrac (c : Config) : ℚ :=
  if c.targetProfit > 0 then c.targetProfit / 100 else 0

/-- `entry_tf`. -/
def Config.entryTf (c : Config) : String :=
  if c.entryConditions.isEmpty then "1m" else getHighestTimeframe c.entryConditions

/-- `so_tf`. -/
def Config.soTf (c : Config) : String :=
  if c.safetyConditions.isEmpty then "1m" else getHighestTimeframe c.safetyConditions

/-- `exit_tf` (computed by the source but unused by the exit logic, which
always closes at the row's base close). -/
def Config.exitTf (c : Config) : String :=
  if c.exitConditions.isEmpty then "1m" else getHighestTimeframe c.exitConditions

/-- `has_entry_conditions`. -/
def Config.hasEntryConditions (c : Config) : Bool :=
  !c.entryConditions.isEmpty

/-- `has_exit_conditions`. -/
def Config.hasExitConditions (c : Config) : Bool :=
  c.conditionsActive && !c.exitConditions.isEmpty

/-- `has_safety_conditions`. -/
def Config.hasSafetyConditions (c : Config) : Bool :=
  c.safetyOrderToggle && !c.safetyConditions.isEmpty

/-- The `1e-12` positivity guard used before divisions by a price. -/
def tinyEps : ℚ := 1 / 1000000000000

/-- A trade identifier: the global counter value plus the symbol
(`f"{trade_ID_counter}-{sym}"`). -/
structure TradeId where
  num : ℕ
  symbol : String
deriving DecidableEq, Repr

/-- The per-deal record kept in `active_trades[sym]`. -/
structure Trade where
  tradeId : TradeId
  quantity : ℚ
  initialQuantity : ℚ
  placedSoCount : ℤ
  lastSoPrice : ℚ
  lastSoSize : ℚ
  soDevFactor : ℚ
  entryPrice : ℚ
  totalAmount : ℚ
  timeOpened : ℚ
  nextSoPrice : Option ℚ
  stopLossThreshold : Option ℚ
  takeProfitThreshold : Option ℚ

/-- The action tag of a trade event. -/
inductive Action where
  | buy
  | safetyOrder (n : ℤ)
  | sell
  | stopLossExit
  | takeProfitExit
  | timeoutExit
  | hourCheck
deriving DecidableEq, Repr

/-- `is_buy_or_entry`: the lowercased action text contains "buy" or
"safety"; on the actions the kernel emits this holds exactly for BUY and
the safety orders. -/
def Action.isBuyOrEntry : Action → Bool
  | .buy => true
  | .safetyOrder _ => true
  | _ => false

/-- `is_exit_action`: the lowercased action text contains "sell" or
"exit"; on the actions the kernel emits this holds exactly for SELL and
the three EXIT variants. -/
def Action.isExitAction : Action → Bool
  | .sell => true
  | .stopLossExit => true
  | .takeProfitExit => true
  | .timeoutExit => true
  | _ => false

/-- One record appended by `record_trade` (the per-row indicator columns
copied onto the event are dropped: no later stage reads them). A HOUR
CHECK event carries the empty trade id, modelled as `none`. -/
structure TradeEvent where
  ts : ℚ
  symbol : String
  action : Action
  price : ℚ
  quantity : ℚ
  amount : ℚ
  totalAmount : ℚ
  profitPercent : Option ℚ
  moveFromEntry : ℚ
  tradeId : Option TradeId
  comment : String
deriving DecidableEq, Repr

/-- The mutable state of the first-pass event loop. -/
structure KernelState where
  activeTrades : List (String × Trade)
  lastCloseTime : List (String × ℚ)
  lastRowBySymbol : List (String × Row)
  events : List TradeEvent
  tradeIdCounter : ℕ
  globalActiveDeals : ℤ
  lastHourCheckTs : List (String × ℚ)
  currentCandidates : List Row
  lastProcessedTime : Option ℚ
  balance : ℚ
  real : ℚ
  freeCash : ℚ
  positionsBySymbol : List (String × ℚ)
  lastClose : List (String × ℚ)
  maxBalanceSoFar : ℚ
  maxDrawdownSoFar : ℚ
  maxRealBalanceSoFar : ℚ
  maxRealDrawdownSoFar : ℚ

/-- Read of a `defaultdict(float)`. -/
def lookupD (m : List (String × ℚ)) (k : String) : ℚ :=
  (getAssoc m k).getD 0

/-- `positions_by_symbol[sym] += q` on a `defaultdict(float)`. -/
def addPos (m : List (String × ℚ)) (k : String) (q : ℚ) : List (String × ℚ) :=
  updAssoc m k (lookupD m k + q)

/-- The initial loop state. -/
def initState (cfg : Config) : KernelState :=
  { activeTrades := [], lastCloseTime := [], lastRowBySymbol := [],
    events := [], tradeIdCounter := 0, globalActiveDeals := 0,
    lastHourCheckTs := [], currentCandidates := [], lastProcessedTime := none,
    balance := cfg.initialBalance, real := cfg.initialBalance,
    freeCash := cfg.initialBalance, positionsBySymbol := [], lastClose := [],
    maxBalanceSoFar := cfg.initialBalance, maxDrawdownSoFar := 0,
    maxRealBalanceSoFar := cfg.initialBalance, maxRealDrawdownSoFar := 0 }

/-- The cooldown gate: the row is skipped (after recording `last_row`)
when the symbol closed a deal less than `cooldown_between_deals` minutes
ago. -/
def cooldownSkip (cfg : Config) (st : KernelState) (row : Row) : Bool :=
  match getAssoc st.lastCloseTime row.symbol with
  | some t => decide (row.ts - t < cfg.cooldown)
  | none => false

/-- The fresh deal record built at admission (`new_trade`). -/
def mkDeal (cfg : Config) (tid : TradeId) (px qty timeOpened : ℚ) : Trade :=
  { tradeId := tid, quantity := qty, initialQuantity := qty,
    placedSoCount := 0, lastSoPrice := px, lastSoSize := cfg.safetyOrderSize,
    soDevFactor := cfg.priceDeviation, entryPrice := px,
    totalAmount := px * qty, timeOpened,
    nextSoPrice :=
      if cfg.safetyOrderToggle ∧ cfg.maxSafetyOrders > 0 then
        some (px * (1 - cfg.devFrac)) else none,
    stopLossThreshold :=
      if cfg.stopLossToggle ∧ cfg.stopLossValue > 0 then
        some (px * (1 - cfg.slFrac)) else none,
    takeProfitThreshold :=
      if cfg.targetProfit > 0 then some (px * (1 + cfg.tpFrac)) else none }

/-- Admission of one candidate: register the deal, emit the BUY, debit
cash.  `timeOpened` is the wall-clock time of the barrier row, while the
BUY event carries the candidate row's own timestamp. -/
def openDeal (cfg : Config) (timeOpened : ℚ) (st : KernelState)
    (candidate : Row) : KernelState :=
  let px :=
    if cfg.entryTf = "1m" then candidate.close
    else candidate.getNumD ("close_" ++ cfg.entryTf) 0
  let n := st.tradeIdCounter + 1
  let tid : TradeId := ⟨n, candidate.symbol⟩
  let qty := if px > tinyEps then cfg.baseOrderSize / px else 0
  let amount := px * qty
  let ev : TradeEvent :=
    { ts := candidate.ts, symbol := candidate.symbol, action := .buy,
      price := px, quantity := qty, amount, totalAmount := amount,
      profitPercent := none, moveFromEntry := 0, tradeId := some tid,
      comment := "Condition-based Entry" }
  { st with
    tradeIdCounter := n,
    activeTrades := updAssoc st.activeTrades candidate.symbol
      (mkDeal cfg tid px qty timeOpened),
    globalActiveDeals := st.globalActiveDeals + 1,
    events := st.events ++ [ev],
    freeCash := st.freeCash - amount * (1 + cfg.tradingFee),
    positionsBySymbol := addPos st.positionsBySymbol candidate.symbol qty }

/-- Stable insertion of a row into a list ascending by `close`: the row
goes after every earlier row with a strictly smaller close and after
earlier rows with an equal close, as Python's stable `list.sort` does. -/
def insertByClose (r : Row) : List Row → List Row
  | [] => [r]
  | x :: xs => if x.close < r.close then x :: insertByClose r xs else r :: x :: xs

/-- `current_candidates.sort(key=lambda x: x["close"])`. -/
def sortByClose : List Row → List Row
  | [] => []
  | r :: rs => insertByClose r (sortByClose rs)

/-- The admission controller run at a timestamp barrier (and at the final
flush): sort the candidate buffer by close, admit up to the remaining
slot count, clear the buffer. -/
def admitCandidates (cfg : Config) (timeOpened : ℚ) (st : KernelState) :
    KernelState :=
  let sorted := sortByClose st.currentCandidates
  let slots : ℤ := cfg.maxActiveDeals - st.globalActiveDeals
  let selected := if slots > 0 then sorted.take slots.toNat else []
  let st' := selected.foldl (openDeal cfg timeOpened) st
  { st' with currentCandidates := [] }

/-- The shared deal-closing block of the four exit branches: emit the
exit event, clear the symbol's active-deal slot, stamp the cooldown
clock, and settle cash, position, realized balance and the reinvest /
risk-reduction nudge of the notional balance. -/
def closeDeal (cfg : Config) (st : KernelState) (row : Row) (trade : Trade)
    (action : Action) (price : ℚ) (comment : String) : KernelState :=
  let qty := trade.quantity
  let amount := price * qty
  let pp :=
    if trade.totalAmount > 0 then (amount - trade.totalAmount) / trade.totalAmount
    else 0
  let move :=
    if trade.entryPrice > tinyEps then (row.close - trade.entryPrice) / trade.entryPrice
    else 0
  let ev : TradeEvent :=
    { ts := row.ts, symbol := row.symbol, action, price, quantity := qty,
      amount, totalAmount := trade.totalAmount, profitPercent := some pp,
      moveFromEntry := move, tradeId := some trade.tradeId, comment }
  let pl := amount * (1 - cfg.tradingFee) - trade.totalAmount
  { st with
    events := st.events ++ [ev],
    activeTrades := delAssoc st.activeTrades row.symbol,
    globalActiveDeals := st.globalActiveDeals - 1,
    lastCloseTime := updAssoc st.lastCloseTime row.symbol row.ts,
    freeCash := st.freeCash + amount * (1 - cfg.tradingFee),
    positionsBySymbol := addPos st.positionsBySymbol row.symbol (-qty),
    real := st.real + pl,
    balance :=
      if pl < 0 then st.balance + pl * (cfg.riskReduction / 100)
      else if pl > 0 then st.balance + pl * (cfg.reinvestProfit / 100)
      else st.balance }

/-- The stop-loss check of an open deal. -/
def slGuard (cfg : Config) (trade : Trade) (now closePx : ℚ) : Bool :=
  cfg.stopLossToggle &&
    match trade.stopLossThreshold with
    | some th =>
      decide (now - trade.timeOpened ≥ cfg.stopLossTimeout) && decide (closePx ≤ th)
    | none => false

/-- The timeout check of an open deal. -/
def timeoutGuard (cfg : Config) (trade : Trade) (now : ℚ) : Bool :=
  decide (cfg.closeDealAfterTimeout > 0) &&
    decide (now - trade.timeOpened ≥ cfg.closeDealAfterTimeout)

/-- The condition-exit signal (active exit list evaluating true). -/
def condExitSignal (cfg : Config) (row : Row) (prevRow : Option Row) : Bool :=
  cfg.hasExitConditions && checkAllUserConditions row cfg.exitConditions prevRow

/-- The profit percent used by the condition exit. -/
def condProfitPercent (trade : Trade) (closePx : ℚ) : ℚ :=
  let amountExit := closePx * trade.quantity
  if trade.totalAmount > 0 then (amountExit - trade.totalAmount) / trade.totalAmount
  else 0

/-- The minimal-profit filter of the condition exit. -/
def condMinProfitOK (cfg : Config) (trade : Trade) (closePx : ℚ) : Bool :=
  !cfg.minprofToggle || decide (condProfitPercent trade closePx ≥ cfg.minimalProfit)

/-- The take-profit check of an open deal. -/
def tpGuard (cfg : Config) (trade : Trade) (closePx : ℚ) : Bool :=
  cfg.priceChangeActive &&
    match trade.takeProfitThreshold with
    | some tp => decide (closePx ≥ tp)
    | none => false

/-- The hourly-heartbeat block: emits a HOUR CHECK event at most once per
open hour per symbol.  Mirrors the re-check that the symbol still has an
active deal. -/
def hourHeartbeat (st : KernelState) (row : Row) : KernelState :=
  if (getAssoc st.activeTrades row.symbol).isSome then
    match getAssoc st.lastHourCheckTs row.symbol with
    | none => { st with lastHourCheckTs := updAssoc st.lastHourCheckTs row.symbol row.ts }
    | some t =>
      if (row.ts - t) / 60 ≥ 1 then
        let ev : TradeEvent :=
          { ts := row.ts, symbol := row.symbol, action := .hourCheck,
            price := row.close, quantity := 0, amount := 0, totalAmount := 0,
            profitPercent := some 0, moveFromEntry := 0, tradeId := none,
            comment := "Hourly checkpoint" }
        { st with
          events := st.events ++ [ev],
          lastHourCheckTs := updAssoc st.lastHourCheckTs row.symbol row.ts }
      else st
  else st

/-- The ladder scan counting how many further safety orders the current
close triggers (`orders_to_trigger`): walk the scaled trigger ladder
until the close is no longer below it. -/
def countSoTriggers (soClose : Val) (priceDev stepScale : ℚ) :
    ℕ → ℚ → ℚ → ℕ
  | 0, _, _ => 0
  | n + 1, tempNext, tempDev =>
    if vlt soClose tempNext then
      let d := tempDev * stepScale
      (countSoTriggers soClose priceDev stepScale n
        (tempNext * (1 - (priceDev * d) / 100)) d) + 1
    else 0

/-- Execution of the triggered safety-order tranches in one bar: each
fill grows quantity and total cost, recomputes the take-profit trigger
for the "percentage-total" type, emits the Safety Order event, advances
the ladder state, scales the next tranche size, and settles cash and
position. -/
def execSoFills (cfg : Config) (row : Row) (soPx : ℚ) :
    ℕ → KernelState → Trade → ℚ → KernelState × Trade × ℚ
  | 0, st, trade, soSize => (st, trade, soSize)
  | n + 1, st, trade, soSize =>
    let soQty := if soPx > tinyEps then soSize / soPx else 0
    let placed := trade.placedSoCount + 1
    let qty' := trade.quantity + soQty
    let orderAmount := soPx * soQty
    let total' := trade.totalAmount + orderAmount
    let move :=
      if trade.entryPrice > tinyEps then (soPx - trade.entryPrice) / trade.entryPrice
      else 0
    let tp' :=
      if cfg.takeProfitType = "percentage-total" ∧ qty' > 0 then
        some ((total' / qty') * (1 + cfg.tpFrac))
      else trade.takeProfitThreshold
    let ev : TradeEvent :=
      { ts := row.ts, symbol := row.symbol, action := .safetyOrder placed,
        price := soPx, quantity := soQty, amount := orderAmount,
        totalAmount := total', profitPercent := none, moveFromEntry := move,
        tradeId := some trade.tradeId,
        comment := s!"Added safety order {placed}" }
    let devFactor' := trade.soDevFactor * cfg.safetyStepScale
    let trade' : Trade :=
      { trade with
        placedSoCount := placed, quantity := qty',
        totalAmount := total', takeProfitThreshold := tp',
        lastSoPrice := soPx, soDevFactor := devFactor',
        nextSoPrice := some (soPx * (1 - (cfg.priceDeviation * devFactor') / 100)) }
    let st' : KernelState :=
      { st with
        events := st.events ++ [ev],
        freeCash := st.freeCash - orderAmount * (1 + cfg.tradingFee),
        positionsBySymbol := addPos st.positionsBySymbol row.symbol soQty }
    execSoFills cfg row soPx n st' trade' (soSize * cfg.safetyVolScale)

/-- The safety-order ladder branch of an open deal.  The second component
is true when the branch `continue`s the loop (skips the mark-to-market
tail), which happens only when the per-timeframe safety close is a
missing column. -/
def soLadder (cfg : Config) (st : KernelState) (row : Row)
    (prevRow : Option Row) (trade : Trade) : KernelState × Bool :=
  if cfg.safetyOrderToggle && decide (trade.placedSoCount < cfg.maxSafetyOrders) then
    let soPx? : Option Val :=
      if cfg.soTf = "1m" then some (.num row.close)
      else row.get ("close_" ++ cfg.soTf)
    match soPx? with
    | none => (st, true)
    | some soClose =>
      if !cfg.hasSafetyConditions ||
          checkAllUserConditions row cfg.safetyConditions prevRow then
        let remaining := (cfg.maxSafetyOrders - trade.placedSoCount).toNat
        let k := countSoTriggers soClose cfg.priceDeviation cfg.safetyStepScale
          remaining (trade.nextSoPrice.getD 0) trade.soDevFactor
        if k > 0 then
          let soPx := soClose.toRatD 0
          let res := execSoFills cfg row soPx k st trade trade.lastSoSize
          let trade' := { res.2.1 with lastSoSize := res.2.2 }
          ({ res.1 with
              activeTrades := updAssoc res.1.activeTrades row.symbol trade' },
            false)
        else (st, false)
      else (st, false)
  else (st, false)

/-- The per-row logic of a symbol holding an active deal (backtest2.py
lines 958-1098).  The second component is true when the branch
`continue`s the loop, skipping the mark-to-market tail. -/
def activeBranch (cfg : Config) (st : KernelState) (row : Row)
    (prevRow : Option Row) (trade : Trade) : KernelState × Bool :=
  let now := row.ts
  let closePx := row.close
  if slGuard cfg trade now closePx then
    let slv := cfg.stopLossValue
    (closeDeal cfg st row trade .stopLossExit closePx
      s!"Stop loss triggered at {slv} percent", true)
  else if timeoutGuard cfg trade now then
    let cdt := cfg.closeDealAfterTimeout
    (closeDeal cfg st row trade .timeoutExit closePx
      s!"Deal closed after timeout of {cdt} minutes", true)
  else if condExitSignal cfg row prevRow && condMinProfitOK cfg trade closePx then
    (closeDeal cfg st row trade .sell closePx
      (String.append "Exit triggered by conditions"
        (if cfg.minprofToggle then " + min profit" else "")), true)
  else
    let st1 := hourHeartbeat st row
    if tpGuard cfg trade closePx then
      match trade.takeProfitThreshold with
      | some tp =>
        let tgt := cfg.targetProfit
        (closeDeal cfg st1 row trade .takeProfitExit tp
          s!"Take profit triggered at {tgt} percent", true)
      | none => (st1, false)
    else
      soLadder cfg st1 row prevRow trade

/-- One iteration of the first-pass event loop: liquidity gate, cooldown
gate, timestamp-barrier admission, per-symbol entry or active-deal logic,
then (unless a branch `continue`d) the portfolio mark-to-market. -/
def stepRow (cfg : Config) (st : KernelState) (row : Row) : KernelState :=
  if decide (row.dailyVolUsdt < cfg.minDailyVolume) then st
  else if cooldownSkip cfg st row then
    { st with lastRowBySymbol := updAssoc st.lastRowBySymbol row.symbol row }
  else
    let prevRow := getAssoc st.lastRowBySymbol row.symbol
    let st := { st with
      lastRowBySymbol := updAssoc st.lastRowBySymbol row.symbol row,
      lastClose := updAssoc st.lastClose row.symbol row.close }
    let st :=
      match st.lastProcessedTime with
      | some t =>
        if row.ts ≠ t then
          let st1 :=
            if st.currentCandidates.isEmpty then st
            else admitCandidates cfg row.ts st
          { st1 with lastProcessedTime := some row.ts }
        else st
      | none => st
    let next :=
      match getAssoc st.activeTrades row.symbol with
      | none =>
        if cfg.hasEntryConditions &&
            checkAllUserConditions row cfg.entryConditions prevRow then
          ({ st with currentCandidates := st.currentCandidates ++ [row] }, false)
        else (st, false)
      | some trade => activeBranch cfg st row prevRow trade
    if next.2 then next.1
    else
      let st := markToMarket cfg next.1
      match st.lastProcessedTime with
      | none => { st with lastProcessedTime := some row.ts }
      | some _ => st
where
  /-- The mark-to-market tail of the loop body: unrealized balance,
  running maxima and both drawdown high-water marks. -/
  markToMarket (cfg : Config) (st : KernelState) : KernelState :=
    let unreal := st.positionsBySymbol.foldl
      (fun acc p => acc + (p.2 * lookupD st.lastClose p.1) * (1 - cfg.tradingFee))
      st.freeCash
    let maxBal := if unreal > st.maxBalanceSoFar then unreal else st.maxBalanceSoFar
    let dd := if maxBal > 0 then (maxBal - unreal) / maxBal else 0
    let maxDd := if dd > st.maxDrawdownSoFar then dd else st.maxDrawdownSoFar
    let maxReal := if st.real > st.maxRealBalanceSoFar then st.real else st.maxRealBalanceSoFar
    let rdd := if maxReal > 0 then (maxReal - st.real) / maxReal else 0
    let maxRdd := if rdd > st.maxRealDrawdownSoFar then rdd else st.maxRealDrawdownSoFar
    { st with
      maxBalanceSoFar := maxBal, maxDrawdownSoFar := maxDd,
      maxRealBalanceSoFar := maxReal, maxRealDrawdownSoFar := maxRdd }

/-- The timestamp carried by the final flush (`current_time` holds the
last row's timestamp after the loop). -/
def lastRowTs (rows : List Row) : ℚ :=
  match rows.getLast? with
  | some r => r.ts
  | none => 0

/-- The whole first pass: fold the loop body over the globally-sorted
rows, then flush the remaining candidate buffer (the early-stop breaker
is disabled in the source, so the flush is unconditional on it). -/
def runFirstPass (cfg : Config) (rows : List Row) : KernelState :=
  let st := rows.foldl (stepRow cfg) (initState cfg)
  if st.currentCandidates.isEmpty then st
  else admitCandidates cfg (lastRowTs rows) st

/-- The admission phase of one loop iteration: at a timestamp barrier,
flush the candidate buffer and stamp `last_processed_time`. -/
def admitPhase (cfg : Config) (row : Row) (st : KernelState) : KernelState :=
  match st.lastProcessedTime with
  | some t =>
    if row.ts ≠ t then
      let st1 :=
        if st.currentCandidates.isEmpty then st
        else admitCandidates cfg row.ts st
      { st1 with lastProcessedTime := some row.ts }
    else st
  | none => st

/-- The tail of one loop iteration after the gates and the admission
phase: per-symbol entry or active-deal logic, then (unless a branch
`continue`d) the mark-to-market block and the first stamping of
`last_processed_time`. -/
def stepTail (cfg : Config) (row : Row) (prevRow : Option Row)
    (st : KernelState) : KernelState :=
  let next :=
    match getAssoc st.activeTrades row.symbol with
    | none =>
      if cfg.hasEntryConditions &&
          checkAllUserConditions row cfg.entryConditions prevRow then
        ({ st with currentCandidates := st.currentCandidates ++ [row] }, false)
      else (st, false)
    | some trade => activeBranch cfg st row prevRow trade
  if next.2 then next.1
  else
    let st := stepRow.markToMarket cfg next.1
    match st.lastProcessedTime with
    | none => { st with lastProcessedTime := some row.ts }
    | some _ => st

/-! ## The accountant (second pass of `run_backtest`) -/

/-- Strict lexicographic order on the sort key `(timestamp, symbol)` of
`df_trades`. -/
def eventKeyLt (a b : TradeEvent) : Prop :=
  a.ts < b.ts ∨ (a.ts = b.ts ∧ a.symbol < b.symbol)

instance (a b : TradeEvent) : Decidable (eventKeyLt a b) :=
  inferInstanceAs (Decidable (_ ∨ _))

/-- Stable insertion for the `(timestamp, symbol)` sort: a later event
goes after every already-placed event it is not strictly before. -/
def insertEventByKey (e : TradeEvent) : List TradeEvent → List TradeEvent
  | [] => [e]
  | x :: xs => if eventKeyLt e x then e :: x :: xs else x :: insertEventByKey e xs

/-- `pd.DataFrame(all_trades).sort_values(["timestamp", "symbol"])`. -/
def sortEventsByKey (es : List TradeEvent) : List TradeEvent :=
  es.foldl (fun acc e => insertEventByKey e acc) []

/-- The trade-event stream handed to the accountant: the first-pass
journal sorted by `(timestamp, symbol)`. -/
def dfTrades (cfg : Config) (rows : List Row) : List TradeEvent :=
  sortEventsByKey (runFirstPass cfg rows).events

/-- Stable insertion for the timestamp-only sort of `df_filtered`. -/
def insertEventByTs (e : TradeEvent) : List TradeEvent → List TradeEvent
  | [] => [e]
  | x :: xs => if e.ts < x.ts then e :: x :: xs else x :: insertEventByTs e xs

/-- `pd.DataFrame(filtered_rows).sort_values("timestamp")`. -/
def sortEventsByTs (es : List TradeEvent) : List TradeEvent :=
  es.foldl (fun acc e => insertEventByTs e acc) []

/-- List membership by decidable equality (a Python `in` on a set). -/
def memList {α : Type} [DecidableEq α] (x : α) : List α → Bool
  | [] => false
  | y :: ys => if y = x then true else memList x ys

/-- The state of the accountant's admission-replay filter. -/
structure FilterState where
  activeDealsCount : ℤ
  activeTradeId : List (String × Option TradeId)
  skippedTradeIds : List (Option TradeId)
  kept : List TradeEvent

/-- The initial filter state (`active_trade_id` starts with every pair
mapped to `None`, modelled by the default-`none` read). -/
def initFilterState : FilterState :=
  { activeDealsCount := 0, activeTradeId := [], skippedTradeIds := [], kept := [] }

/-- One event of the accountant's admission-replay filter (backtest2.py
lines 1192-1220): HOUR CHECKs pass through, BUY/Safety events of a new
trade id are admitted only below the cap, follow-up events of a skipped
id are dropped, exits of the symbol's active id close it, and all other
exits pass through verbatim. -/
def filterStep (maxActiveDeals : ℤ) (st : FilterState) (e : TradeEvent) :
    FilterState :=
  if e.action = .hourCheck then { st with kept := st.kept ++ [e] }
  else if memList e.tradeId st.skippedTradeIds then st
  else if e.action.isBuyOrEntry then
    match (getAssoc st.activeTradeId e.symbol).getD none with
    | none =>
      if st.activeDealsCount < maxActiveDeals then
        { st with
          activeTradeId := updAssoc st.activeTradeId e.symbol e.tradeId,
          activeDealsCount := st.activeDealsCount + 1,
          kept := st.kept ++ [e] }
      else { st with skippedTradeIds := st.skippedTradeIds ++ [e.tradeId] }
    | some tid =>
      if e.tradeId = some tid then { st with kept := st.kept ++ [e] }
      else { st with skippedTradeIds := st.skippedTradeIds ++ [e.tradeId] }
  else if e.action.isExitAction then
    match (getAssoc st.activeTradeId e.symbol).getD none with
    | some tid =>
      if e.tradeId = some tid then
        { st with
          activeTradeId := updAssoc st.activeTradeId e.symbol none,
          activeDealsCount := st.activeDealsCount - 1,
          kept := st.kept ++ [e] }
      else { st with kept := st.kept ++ [e] }
    | none => { st with kept := st.kept ++ [e] }
  else st

/-- The whole admission-replay filter. -/
def runFilter (maxActiveDeals : ℤ) (es : List TradeEvent) : FilterState :=
  es.foldl (filterStep maxActiveDeals) initFilterState

/-- `df_filtered`: the kept events re-sorted by timestamp alone. -/
def dfFiltered (cfg : Config) (rows : List Row) : List TradeEvent :=
  sortEventsByTs (runFilter cfg.maxActiveDeals (dfTrades cfg rows)).kept

/-- The per-trade accumulator (`trade_accum[tid]`). -/
structure Accum where
  position : ℚ
  tradeSize : ℚ
  fraction : ℚ

/-- One ledger row (`out_rec`).  Values are recorded exactly; the
presentational `round(..., n)` calls of the source are not modelled. -/
structure OutRec where
  ts : ℚ
  symbol : String
  action : Action
  price : ℚ
  comment : String
  tradeId : Option TradeId
  position : ℚ
  orderSize : ℚ
  tradeSize : ℚ
  profitLoss : ℚ
  balance : ℚ
  realBalance : ℚ
  freeCash : ℚ
  positionChange : ℚ
  positionHeld : ℚ
  unrealizedBalance : ℚ
  drawdown : ℚ
  maxDrawdown : ℚ
  realizedDrawdown : ℚ
  maxRealizedDrawdown : ℚ

/-- The state of the accountant's ledger pass. -/
structure LedgerState where
  balance : ℚ
  real : ℚ
  freeCash : ℚ
  positionsBySymbol : List (String × ℚ)
  lastClose : List (String × ℚ)
  tradeAccum : List (Option TradeId × Accum)
  maxBalanceSoFar : ℚ
  maxDrawdownSoFar : ℚ
  maxRealBalanceSoFar : ℚ
  maxRealDrawdownSoFar : ℚ
  records : List OutRec

/-- The initial ledger state. -/
def initLedger (cfg : Config) : LedgerState :=
  { balance := cfg.initialBalance, real := cfg.initialBalance,
    freeCash := cfg.initialBalance, positionsBySymbol := [], lastClose := [],
    tradeAccum := [], maxBalanceSoFar := cfg.initialBalance,
    maxDrawdownSoFar := 0, maxRealBalanceSoFar := cfg.initialBalance,
    maxRealDrawdownSoFar := 0, records := [] }

/-- The shared tail of one ledger iteration: mark-to-market, both
drawdown series, and the output record. -/
def ledgerTail (cfg : Config) (st0 : LedgerState) (e : TradeEvent)
    (lastClose' : List (String × ℚ)) (tradeAccum' : List (Option TradeId × Accum))
    (positions' : List (String × ℚ)) (balance' real' freeCash' : ℚ)
    (orderSize pl positionChange : ℚ) (accAfter : Accum) : LedgerState :=
  let unreal := positions'.foldl
    (fun acc p => acc + (p.2 * lookupD lastClose' p.1) * (1 - cfg.tradingFee))
    freeCash'
  let maxBal := if unreal > st0.maxBalanceSoFar then unreal else st0.maxBalanceSoFar
  let dd := if maxBal > 0 then (maxBal - unreal) / maxBal else 0
  let maxDd := if dd > st0.maxDrawdownSoFar then dd else st0.maxDrawdownSoFar
  let maxReal := if real' > st0.maxRealBalanceSoFar then real' else st0.maxRealBalanceSoFar
  let rdd := if maxReal > 0 then (maxReal - real') / maxReal else 0
  let maxRdd := if rdd > st0.maxRealDrawdownSoFar then rdd else st0.maxRealDrawdownSoFar
  let rec' : OutRec :=
    { ts := e.ts, symbol := e.symbol, action := e.action, price := e.price,
      comment := e.comment, tradeId := e.tradeId,
      position := accAfter.position, orderSize, tradeSize := accAfter.tradeSize,
      profitLoss := pl, balance := balance', realBalance := real',
      freeCash := freeCash', positionChange,
      positionHeld := lookupD positions' e.symbol,
      unrealizedBalance := unreal, drawdown := dd, maxDrawdown := maxDd,
      realizedDrawdown := rdd, maxRealizedDrawdown := maxRdd }
  { balance := balance', real := real', freeCash := freeCash',
    positionsBySymbol := positions', lastClose := lastClose',
    tradeAccum := tradeAccum', maxBalanceSoFar := maxBal,
    maxDrawdownSoFar := maxDd, maxRealBalanceSoFar := maxReal,
    maxRealDrawdownSoFar := maxRdd, records := st0.records ++ [rec'] }

/-- The accumulator consulted for an event: the existing
`trade_accum[tid]`, or the fresh one inserted on first sight (with the
compounding fraction captured from the current realized balance). -/
def ledgerAccum (cfg : Config) (st0 : LedgerState) (e : TradeEvent) : Accum :=
  match getAssoc st0.tradeAccum e.tradeId with
  | some a => a
  | none =>
    { position := 0, tradeSize := 0,
      fraction := if cfg.initialBalance ≠ 0 then st0.real / cfg.initialBalance else 0 }

/-- One iteration of the accountant's ledger pass (backtest2.py lines
1244-1334). -/
def ledgerStep (cfg : Config) (st0 : LedgerState) (e : TradeEvent) :
    LedgerState :=
  let sym := e.symbol
  let px := e.price
  let amt := e.amount
  let lastClose' := updAssoc st0.lastClose sym px
  let accum0 : Accum := ledgerAccum cfg st0 e
  let tradeAccum0 :=
    match getAssoc st0.tradeAccum e.tradeId with
    | some _ => st0.tradeAccum
    | none => updAssoc st0.tradeAccum e.tradeId accum0
  if e.action.isBuyOrEntry then
    let orderSize := accum0.fraction * amt
    let position := if px > 0 then orderSize / px else 0
    let acc' : Accum :=
      { accum0 with
        position := accum0.position + position,
        tradeSize := accum0.tradeSize + orderSize }
    ledgerTail cfg st0 e lastClose' (updAssoc tradeAccum0 e.tradeId acc')
      (addPos st0.positionsBySymbol sym position)
      st0.balance st0.real (st0.freeCash - orderSize * (1 + cfg.tradingFee))
      orderSize 0 position acc'
  else if e.action.isExitAction then
    let position := accum0.position
    let orderSize := position * px
    let pl := orderSize * (1 - cfg.tradingFee) - accum0.tradeSize * (1 + cfg.tradingFee)
    let acc' : Accum := { accum0 with position := 0, tradeSize := 0 }
    let balance' :=
      if pl < 0 then st0.balance + pl * (cfg.riskReduction / 100)
      else if pl > 0 then st0.balance + pl * (cfg.reinvestProfit / 100)
      else st0.balance
    ledgerTail cfg st0 e lastClose' (updAssoc tradeAccum0 e.tradeId acc')
      (addPos st0.positionsBySymbol sym (-position))
      balance' (st0.real + pl - orderSize * cfg.tradingFee)
      (st0.freeCash + orderSize * (1 - cfg.tradingFee))
      orderSize pl (-position) acc'
  else
    ledgerTail cfg st0 e lastClose' tradeAccum0 st0.positionsBySymbol
      st0.balance st0.real st0.freeCash 0 0 0 accum0

/-- The whole ledger pass over `df_filtered`. -/
def runLedger (cfg : Config) (es : List TradeEvent) : LedgerState :=
  es.foldl (ledgerStep cfg) (initLedger cfg)

/-! ## The data loader post-processing (`load_parquets_in_parallel`) -/

/-- Stable insertion for the timestamp sort of one instrument table. -/
def insertRowByTs (r : Row) : List Row → List Row
  | [] => [r]
  | x :: xs => if r.ts < x.ts then r :: x :: xs else x :: insertRowByTs r xs

/-- `df.sort_values('timestamp')` on one instrument table. -/
def sortRowsByTs (rs : List Row) : List Row :=
  rs.foldl (fun acc r => insertRowByTs r acc) []

/-- The per-instrument post-processing of the crypto loader's `load_one`
(backtest2.py lines 174-179): timestamps are already parsed in the model;
the rows are sorted ascending by timestamp and the instrument tag is
assigned to every row.  No other transformation is applied. -/
def loadPostProcess (rows : List Row) (pair : String) : List Row :=
  (sortRowsByTs rows).map fun r => { r with symbol := pair }

/-! ## Property-level definitions used by the theorems -/

/-- The crypto evaluator's gate outcome for one condition: true when the
condition's timeframe is unmapped or its close-mirror cell is falsy. -/
def cryptoGateFails (row : Row) (c : Cond) : Bool :=
  match cryptoTfCloseCol ((c.subStr "Timeframe").getD "1m") with
  | none => true
  | some col => ¬ truthyCell (row.get col)

/-- The exit chosen by the priority chain of the active-deal branch: the
first of stop-loss, timeout, condition exit, take-profit whose guard
fires. -/
def firedExit (cfg : Config) (trade : Trade) (row : Row)
    (prevRow : Option Row) : Option Action :=
  if slGuard cfg trade row.ts row.close then some .stopLossExit
  else if timeoutGuard cfg trade row.ts then some .timeoutExit
  else if condExitSignal cfg row prevRow && condMinProfitOK cfg trade row.close then
    some .sell
  else if tpGuard cfg trade row.close then some .takeProfitExit
  else none

/-- The deal-cap invariant of the first pass: unique active-deal keys,
and open-deal count bounded by the running counter, itself bounded by
`max_active_deals`. -/
def KernelInv (cfg : Config) (st : KernelState) : Prop :=
  ((st.activeTrades.map Prod.fst).Nodup) ∧
  ((st.activeTrades.length : ℤ) ≤ st.globalActiveDeals) ∧
  (st.globalActiveDeals ≤ cfg.maxActiveDeals)

/-- The cooldown separation property between one (exit, BUY) pair of the
journal: a BUY of a symbol follows any earlier exit of the same symbol by
at least the cooldown. -/
def cooldownOK (cooldown : ℚ) (e1 e2 : TradeEvent) : Prop :=
  e1.action.isExitAction = true → e2.action = .buy → e1.symbol = e2.symbol →
    e1.ts + cooldown ≤ e2.ts

/-- The degenerate-state invariant of a zero deal cap: no active trade,
zero counter, and an empty journal. -/
def ZeroInv (st : KernelState) : Prop :=
  st.activeTrades = [] ∧ st.globalActiveDeals = 0 ∧ st.events = []

/-- The cooldown invariant of the first-pass loop state, at a lower
bound `lb` of every still-unprocessed row timestamp: the journal is
pairwise cooldown-separated, the cooldown clocks are stamped no later
than `lb`, every exit event is covered by its symbol's cooldown clock,
every buffered candidate is cooldown-separated from every earlier exit
of its symbol, and no buffered candidate's symbol holds an active
deal. -/
def CInv (cfg : Config) (st : KernelState) (lb : ℚ) : Prop :=
  st.events.Pairwise (cooldownOK cfg.cooldown) ∧
  (∀ s t, getAssoc st.lastCloseTime s = some t → t ≤ lb) ∧
  (∀ e ∈ st.events, e.action.isExitAction = true →
    ∃ t, getAssoc st.lastCloseTime e.symbol = some t ∧ e.ts ≤ t) ∧
  (∀ c ∈ st.currentCandidates, ∀ e ∈ st.events,
    e.action.isExitAction = true → e.symbol = c.symbol →
      e.ts + cfg.cooldown ≤ c.ts) ∧
  (∀ c ∈ st.currentCandidates, getAssoc st.activeTrades c.symbol = none)

/-! ## Concrete inputs used by counterexamples and witnesses -/

/-- An entry condition that holds on every row carrying `RSI_14` below
100 (base timeframe). -/
def alwaysCond : Cond :=
  ⟨"RSI", [("Condition", .s "Less Than"), ("Signal Value", .n 100)]⟩

/-- The safety-ladder scenario configuration of the spec: base order
1000, safety order 1000, 5 percent deviation, two safety orders, volume
scale 2, step scale 1, no fee, no exits. -/
def soCfg : Config :=
  { maxActiveDeals := 1, initialBalance := 10000, tradingFee := 0,
    baseOrderSize := 1000, safetyOrderSize := 1000, riskReduction := 0,
    reinvestProfit := 0, closeDealAfterTimeout := 0,
    entryConditions := [alwaysCond],
    exitConditions := [], safetyConditions := [],
    safetyOrderToggle := true, priceDeviation := 5, maxSafetyOrders := 2,
    safetyStepScale := 1, safetyVolScale := 2,
    stopLossToggle := false, stopLossValue := 0, priceChangeActive := false,
    targetProfit := 0, takeProfitType := "percentage-total",
    conditionsActive := false, minprofToggle := false, minimalProfit := 0,
    minDailyVolume := 0, cooldown := 0, stopLossTimeout := 0 }

/-- The cells shared by the scenario rows. -/
def scnCells : List (String × Val) := [("RSI_14", .num 50)]

/-- Scenario bar: entry bar at close 100. -/
def soRow1 : Row :=
  { ts := 0, symbol := "X", close := 100, dailyVolUsdt := 1, cells := scnCells }

/-- Scenario bar: close 94. -/
def soRow2 : Row :=
  { ts := 1, symbol := "X", close := 94, dailyVolUsdt := 1, cells := scnCells }

/-- Scenario bar: close 88. -/
def soRow3 : Row :=
  { ts := 2, symbol := "X", close := 88, dailyVolUsdt := 1, cells := scnCells }

/-- Configuration for the event-ordering scenario: cap 2, deals time out
after one minute. -/
def tieCfg : Config :=
  { maxActiveDeals := 2, initialBalance := 10000, tradingFee := 0,
    baseOrderSize := 1000, safetyOrderSize := 0, riskReduction := 0,
    reinvestProfit := 0, closeDealAfterTimeout := 1,
    entryConditions := [alwaysCond],
    exitConditions := [], safetyConditions := [],
    safetyOrderToggle := false, priceDeviation := 0, maxSafetyOrders := 0,
    safetyStepScale := 1, safetyVolScale := 1,
    stopLossToggle := false, stopLossValue := 0, priceChangeActive := false,
    targetProfit := 0, takeProfitType := "",
    conditionsActive := false, minprofToggle := false, minimalProfit := 0,
    minDailyVolume := 0, cooldown := 0, stopLossTimeout := 0 }

/-- Ordering scenario, bar 1: symbol B fires entry at t = 0. -/
def tieRow1 : Row :=
  { ts := 0, symbol := "B", close := 10, dailyVolUsdt := 1, cells := scnCells }

/-- Ordering scenario, bar 2: t = 1 barrier admits B's deal. -/
def tieRow2 : Row :=
  { ts := 1, symbol := "B", close := 10, dailyVolUsdt := 1, cells := scnCells }

/-- Ordering scenario, bar 3: t = 2, B's deal times out. -/
def tieRow3 : Row :=
  { ts := 2, symbol := "B", close := 10, dailyVolUsdt := 1, cells := scnCells }

/-- Ordering scenario, bar 4: symbol A fires entry at the same t = 2. -/
def tieRow4 : Row :=
  { ts := 2, symbol := "A", close := 5, dailyVolUsdt := 1, cells := scnCells }

/-- A 5m RSI condition with threshold 30. -/
def rsi5mCond : Cond :=
  ⟨"RSI", [("Timeframe", .s "5m"), ("Condition", .s "Less Than"),
    ("Signal Value", .n 30)]⟩

/-- A row whose `Bar_Close_5m` flag is present and falsy while the 5m
close mirror is truthy and the 5m RSI satisfies the threshold. -/
def barCloseFalseRow : Row :=
  { ts := 0, symbol := "X", close := 100, dailyVolUsdt := 1,
    cells := [("Bar_Close_5m", .num 0), ("close_5m", .num 100),
      ("RSI_14_5m", .num 10)] }

/-- A row whose 5m close mirror is falsy. -/
def mirrorFalsyRow : Row :=
  { ts := 0, symbol := "X", close := 100, dailyVolUsdt := 1,
    cells := [("close_5m", .num 0), ("RSI_14_5m", .num 10)] }

/-- A 4h RSI condition for the stocks evaluator. -/
def rsi4hCond : Cond :=
  ⟨"RSI", [("Timeframe", .s "4h"), ("Condition", .s "Less Than"),
    ("Signal Value", .n 30)]⟩

/-- A row whose `Bar_Close_4h` flag is present and falsy. -/
def barClose4hFalseRow : Row :=
  { ts := 0, symbol := "X", close := 100, dailyVolUsdt := 1,
    cells := [("Bar_Close_4h", .num 0), ("RSI_14_4h", .num 10)] }

/-- A row whose `Bar_Close_4h` flag is present but NaN, with the 4h RSI
below the threshold. -/
def nanBarCloseRow : Row :=
  { ts := 0, symbol := "X", close := 100, dailyVolUsdt := 1,
    cells := [("Bar_Close_4h", .nan), ("RSI_14_4h", .num 10)] }

/-- A row whose 5m close mirror is present but NaN, with the 5m RSI
below the threshold. -/
def nanMirrorRow : Row :=
  { ts := 0, symbol := "X", close := 100, dailyVolUsdt := 1,
    cells := [("close_5m", .nan), ("RSI_14_5m", .num 10)] }

/-- A MACD condition whose subfields dict is empty: trigger and line
sub-parameters are absent. -/
def bareMacdCond : Cond := ⟨"MACD", []⟩

/-- A row carrying non-null default-preset MACD columns. -/
def macdRow : Row :=
  { ts := 0, symbol := "X", close := 100, dailyVolUsdt := 1,
    cells := [("MACD_12_26_9", .num 1), ("MACD_12_26_9_Signal", .num 2)] }

/-- Loader-scenario row: timestamp 1, close 1. -/
def dupRow1 : Row :=
  { ts := 1, symbol := "", close := 1, dailyVolUsdt := 0, cells := [] }

/-- Loader-scenario row: the same timestamp 1 again, close 2. -/
def dupRow2 : Row :=
  { ts := 1, symbol := "", close := 2, dailyVolUsdt := 0, cells := [] }

/-- A configuration with take-profit active at 10 percent and no other
exits, used to exercise the take-profit branch. -/
def tpCfg : Config :=
  { maxActiveDeals := 1, initialBalance := 10000, tradingFee := 1/100,
    baseOrderSize := 1000, safetyOrderSize := 0, riskReduction := 0,
    reinvestProfit := 0, closeDealAfterTimeout := 0,
    entryConditions := [alwaysCond],
    exitConditions := [], safetyConditions := [],
    safetyOrderToggle := false, priceDeviation := 0, maxSafetyOrders := 0,
    safetyStepScale := 1, safetyVolScale := 1,
    stopLossToggle := false, stopLossValue := 0, priceChangeActive := true,
    targetProfit := 10, takeProfitType := "percentage-total",
    conditionsActive := false, minprofToggle := false, minimalProfit := 0,
    minDailyVolume := 0, cooldown := 0, stopLossTimeout := 0 }

/-- A deal opened at price 100 with quantity 10 and take-profit trigger
110. -/
def tpTrade : Trade :=
  { tradeId := ⟨1, "X"⟩, quantity := 10, initialQuantity := 10,
    placedSoCount := 0, lastSoPrice := 100, lastSoSize := 0,
    soDevFactor := 0, entryPrice := 100, totalAmount := 1000,
    timeOpened := 0, nextSoPrice := none, stopLossThreshold := none,
    takeProfitThreshold := some 110 }

/-- A bar whose close 120 is above the trigger 110. -/
def tpRow : Row :=
  { ts := 5, symbol := "X", close := 120, dailyVolUsdt := 1, cells := scnCells }

/-- An exit event consumed by the accountant's ledger pass. -/
def ledExitEvent : TradeEvent :=
  { ts := 5, symbol := "X", action := .sell, price := 110, quantity := 10,
    amount := 1100, totalAmount := 1000, profitPercent := some (1/10),
    moveFromEntry := 1/10, tradeId := some ⟨1, "X"⟩, comment := "" }

/-! ## General lemmas about the evaluators -/

lemma checkCond_false_of_gateFails (row : Row) (prev : Option Row) (c : Cond)
    (h : cryptoGateFails row c = true) :
    checkCond row prev c = false := by
  unfold checkCond
  unfold cryptoGateFails at h
  cases hc : cryptoTfCloseCol ((c.subStr "Timeframe").getD "1m") with
  | none => simp [hc]
  | some col =>
    rw [hc] at h
    simp only [hc]
    simp at h
    simp [h]

lemma checkAll_false_of_mem {row : Row} {prev : Option Row} {c : Cond}
    {conds : List Cond} (hm : c ∈ conds)
    (hf : checkCond row prev c = false) :
    checkAllUserConditions row conds prev = false := by
  unfold checkAllUserConditions
  rw [List.all_eq_false]
  exact ⟨c, hm, by simp [hf]⟩

lemma stocksCheckCond_false_of_gateFails (row : Row) (prev : Option Row)
    (c : Cond)
    (h : Stocks.stocksGateFails row ((c.subStr "Timeframe").getD "1h") = true) :
    Stocks.checkCond row prev c = false := by
  unfold Stocks.checkCond
  simp [h]

lemma stocksCheckAll_false_of_mem {row : Row} {prev : Option Row} {c : Cond}
    {conds : List Cond} (hm : c ∈ conds)
    (hf : Stocks.checkCond row prev c = false) :
    Stocks.checkAllUserConditions row conds prev = false := by
  unfold Stocks.checkAllUserConditions
  rw [List.all_eq_false]
  exact ⟨c, hm, by simp [hf]⟩

/-! ## Claim C5: bar-close gating -/

/-- C5, counterexample.  The crypto evaluator does not consult the
`Bar_Close_<t>` flag: on a row whose `Bar_Close_5m` cell is present and
falsy (but whose 5m close mirror is truthy) a 5m RSI predicate is
evaluated and succeeds, where the claim demands failure. -/
theorem claim5_counterexample :
    barCloseFalseRow.get "Bar_Close_5m" = some (.num 0) ∧
    Val.truthy (.num 0) = false ∧
    checkAllUserConditions barCloseFalseRow [rsi5mCond] none = true := by
  refine ⟨by decide, by decide, by decide⟩

/-- C5, amended: in the stocks evaluator a predicate fails without
evaluating whenever its timeframe has a mapped `Bar_Close_<t>` flag
column (1h, 4h, 1d) that is present on the row and falsy; the crypto
evaluator instead gates on the truthiness of the predicate timeframe's
close-mirror column (`close` for 1m, `close_<t>` otherwise): a falsy
mirror fails the conjunction, and no `Bar_Close_<t>` flag is read.  A
NaN cell is truthy (Python `bool(nan)` is true), so a present NaN flag
or mirror does not trip either gate: the predicate is evaluated and can
succeed. -/
theorem claim5_gating :
    ((∀ (row : Row) (conds : List Cond) (prev : Option Row) (c : Cond),
      c ∈ conds →
      Stocks.stocksGateFails row ((c.subStr "Timeframe").getD "1h") = true →
      Stocks.checkAllUserConditions row conds prev = false) ∧
    (∀ (row : Row) (conds : List Cond) (prev : Option Row) (c : Cond),
      c ∈ conds →
      cryptoGateFails row c = true →
      checkAllUserConditions row conds prev = false)) ∧
    ((Stocks.stocksGateFails nanBarCloseRow
        ((rsi4hCond.subStr "Timeframe").getD "1h") = false ∧
      Stocks.checkAllUserConditions nanBarCloseRow [rsi4hCond] none = true) ∧
    (cryptoGateFails nanMirrorRow rsi5mCond = false ∧
      checkAllUserConditions nanMirrorRow [rsi5mCond] none = true)) := by
  refine ⟨⟨?_, ?_⟩, ⟨by decide, by decide⟩, by decide, by decide⟩
  · intro row conds prev c hm hg
    exact stocksCheckAll_false_of_mem hm
      (stocksCheckCond_false_of_gateFails row prev c hg)
  · intro row conds prev c hm hg
    exact checkAll_false_of_mem hm (checkCond_false_of_gateFails row prev c hg)

/-- C5, witness: the amended gating applied to concrete rows failing the
stocks flag gate and the crypto mirror gate. -/
theorem claim5_gating_witness :
    (Stocks.stocksGateFails barClose4hFalseRow
        ((rsi4hCond.subStr "Timeframe").getD "1h") = true ∧
      Stocks.checkAllUserConditions barClose4hFalseRow [rsi4hCond] none = false) ∧
    (cryptoGateFails mirrorFalsyRow rsi5mCond = true ∧
      checkAllUserConditions mirrorFalsyRow [rsi5mCond] none = false) := by
  refine ⟨⟨by decide, ?_⟩, ⟨by decide, ?_⟩⟩
  · exact claim5_gating.1.1 barClose4hFalseRow [rsi4hCond] none rsi4hCond
      (by simp) (by decide)
  · exact claim5_gating.1.2 mirrorFalsyRow [rsi5mCond] none rsi5mCond
      (by simp) (by decide)

/-! ## Claim C8: predicate-level error handling -/

/-- C8, counterexample.  A MACD condition with no trigger sub-parameters
on a row with non-null MACD columns passes vacuously: the evaluator
returns true, where the claim demands false for conditions with absent
sub-parameters. -/
theorem claim8_counterexample :
    getAssoc bareMacdCond.subfields "MACD Trigger" = none ∧
    getAssoc bareMacdCond.subfields "Line Trigger" = none ∧
    getAssoc bareMacdCond.subfields "Condition" = none ∧
    checkAllUserConditions macdRow [bareMacdCond] none = true := by
  refine ⟨by decide, by decide, by decide, by decide⟩

/-- C8, amended: a condition whose referenced main column is missing
from the row deterministically fails the conjunction, for every
indicator family; but a MACD condition with absent trigger
sub-parameters and non-null columns passes vacuously (likewise
Stochastic and HeikenAshi with absent or unrecognized operators), and
nothing forces a failure there. -/
theorem claim8_null_handling :
    (∀ (row : Row) (prev : Option Row) (c : Cond),
      c.indicator = "RSI" →
      row.get (tfSuffix ("RSI_" ++ c.subRender "RSI Length" "14")
        ((c.subStr "Timeframe").getD "1m")) = none →
      checkCond row prev c = false) ∧
    (∀ (row : Row) (prev : Option Row) (c : Cond),
      c.indicator = "TradingView" →
      row.get (tfSuffix "tv_tech_label" ((c.subStr "Timeframe").getD "1m")) = none →
      checkCond row prev c = false) ∧
    (∀ (row : Row) (prev : Option Row) (c : Cond),
      c.indicator = "HeikenAshi" →
      row.get (tfSuffix "HA_Close" ((c.subStr "Timeframe").getD "1m")) = none →
      checkCond row prev c = false) ∧
    (∀ (row : Row) (prev : Option Row) (c : Cond),
      c.indicator = "MA" →
      row.get (tfSuffix ((c.subStr "MA Type").getD "SMA" ++ "_" ++
        c.subRender "Fast MA" "14") ((c.subStr "Timeframe").getD "1m")) = none →
      checkCond row prev c = false) ∧
    (∀ (row : Row) (prev : Option Row) (c : Cond),
      c.indicator = "BollingerBands" →
      row.get (tfSuffix ("BB_%B_" ++ c.subRender "BB% Period" "20" ++ "_" ++
        c.subRender "Deviation" "2") ((c.subStr "Timeframe").getD "1m")) = none →
      checkCond row prev c = false) ∧
    (∀ (row : Row) (prev : Option Row) (c : Cond) (mainName signalName : String),
      c.indicator = "MACD" →
      macdCols (c.subRender "MACD Preset" "12,26,9")
        ((c.subStr "Timeframe").getD "1m") "1m" = some (mainName, signalName) →
      row.get mainName = none →
      checkCond row prev c = false) ∧
    (∀ (row : Row) (prev : Option Row) (c : Cond) (kCol dCol : String),
      c.indicator = "Stochastic" →
      stochCols (c.subRender "Stochastic Preset" "14,3,3")
        ((c.subStr "Timeframe").getD "1m") "1m" = some (kCol, dCol) →
      row.get kCol = none →
      checkCond row prev c = false) ∧
    (∀ (row : Row) (prev : Option Row) (c : Cond) (col : String),
      c.indicator = "ParabolicSAR" →
      psarCol (c.subRender "PSAR Preset" "0.02,0.2")
        ((c.subStr "Timeframe").getD "1m") "1m" = some col →
      row.get col = none →
      checkCond row prev c = false) ∧
    (∀ (row : Row) (prev : Option Row) (c : Cond)
      (mainName signalName gcol : String) (mv sv : Val),
      c.indicator = "MACD" →
      getAssoc c.subfields "MACD Trigger" = none →
      getAssoc c.subfields "Line Trigger" = none →
      macdCols (c.subRender "MACD Preset" "12,26,9")
        ((c.subStr "Timeframe").getD "1m") "1m" = some (mainName, signalName) →
      row.get mainName = some mv → row.get signalName = some sv →
      cryptoTfCloseCol ((c.subStr "Timeframe").getD "1m") = some gcol →
      truthyCell (row.get gcol) = true →
      checkCond row prev c = true) := by
  refine ⟨?_, ?_, ?_, ?_, ?_, ?_, ?_, ?_, ?_⟩
  · intro row prev c hi h
    unfold checkCond
    cases hc : cryptoTfCloseCol ((c.subStr "Timeframe").getD "1m") with
    | none => simp [hc]
    | some col =>
      simp only [hc, hi]
      split
      · rfl
      · simp [h]
  · intro row prev c hi h
    unfold checkCond
    cases hc : cryptoTfCloseCol ((c.subStr "Timeframe").getD "1m") with
    | none => simp [hc]
    | some col =>
      simp only [hc, hi]
      split
      · rfl
      · simp [h]
  · intro row prev c hi h
    unfold checkCond
    cases hc : cryptoTfCloseCol ((c.subStr "Timeframe").getD "1m") with
    | none => simp [hc]
    | some col =>
      simp only [hc, hi]
      split
      · rfl
      · simp [h]
  · intro row prev c hi h
    unfold checkCond
    cases hc : cryptoTfCloseCol ((c.subStr "Timeframe").getD "1m") with
    | none => simp [hc]
    | some col =>
      simp only [hc, hi]
      split
      · rfl
      · simp [h]
  · intro row prev c hi h
    unfold checkCond
    cases hc : cryptoTfCloseCol ((c.subStr "Timeframe").getD "1m") with
    | none => simp [hc]
    | some col =>
      simp only [hc, hi]
      split
      · rfl
      · simp [h]
  · intro row prev c mainName signalName hi hcols h
    unfold checkCond
    cases hc : cryptoTfCloseCol ((c.subStr "Timeframe").getD "1m") with
    | none => simp [hc]
    | some col =>
      simp only [hc, hi, hcols]
      split
      · rfl
      · simp [h]
  · intro row prev c kCol dCol hi hcols h
    unfold checkCond
    cases hc : cryptoTfCloseCol ((c.subStr "Timeframe").getD "1m") with
    | none => simp [hc]
    | some col =>
      simp only [hc, hi, hcols]
      split
      · rfl
      · simp [h]
  · intro row prev c col hi hcol h
    unfold checkCond
    cases hc : cryptoTfCloseCol ((c.subStr "Timeframe").getD "1m") with
    | none => simp [hc]
    | some gcol =>
      simp only [hc, hi, hcol]
      split
      · rfl
      · simp [h]
  · intro row prev c mainName signalName gcol mv sv hi ht hl hcols hmv hsv hg htr
    unfold checkCond
    simp only [hg, htr, hi, hcols, hmv, hsv]
    have h1 : (c.subStr "MACD Trigger").getD "" = "" := by
      unfold Cond.subStr
      rw [ht]
      rfl
    have h2 : (c.subStr "Line Trigger").getD "" = "" := by
      unfold Cond.subStr
      rw [hl]
      rfl
    simp [h1, h2]

/-- C8, witness: the missing-column clause applied to a concrete RSI
condition on a row lacking the RSI column, and the vacuous-pass clause
applied to the bare MACD condition. -/
theorem claim8_null_handling_witness :
    (checkCond dupRow1 none alwaysCond = false) ∧
    (checkCond macdRow none bareMacdCond = true) := by
  constructor
  · exact claim8_null_handling.1 dupRow1 none alwaysCond (by decide) (by decide)
  · exact (claim8_null_handling.2.2.2.2.2.2.2.2) macdRow none bareMacdCond
      "MACD_12_26_9" "MACD_12_26_9_Signal" "close" (.num 1) (.num 2)
      (by decide) (by decide) (by decide) (by decide) (by decide) (by decide)
      (by decide) (by decide)

/-! ## Lemmas about the loader's timestamp sort -/

lemma mem_insertRowByTs {a r : Row} {l : List Row} :
    a ∈ insertRowByTs r l ↔ a = r ∨ a ∈ l := by
  induction l with
  | nil => simp [insertRowByTs]
  | cons x xs ih =>
    unfold insertRowByTs
    split
    · simp [List.mem_cons]
    · simp [List.mem_cons, ih]
      tauto

lemma length_insertRowByTs (r : Row) (l : List Row) :
    (insertRowByTs r l).length = l.length + 1 := by
  induction l with
  | nil => rfl
  | cons x xs ih =>
    unfold insertRowByTs
    split
    · simp
    · simp [ih]

lemma pairwise_insertRowByTs {r : Row} {l : List Row}
    (h : l.Pairwise fun a b => a.ts ≤ b.ts) :
    (insertRowByTs r l).Pairwise fun a b => a.ts ≤ b.ts := by
  induction l with
  | nil => simp [insertRowByTs]
  | cons x xs ih =>
    rw [List.pairwise_cons] at h
    obtain ⟨hx, hxs⟩ := h
    unfold insertRowByTs
    split
    · rename_i hlt
      refine List.pairwise_cons.2 ⟨?_, List.pairwise_cons.2 ⟨hx, hxs⟩⟩
      intro b hb
      rcases List.mem_cons.1 hb with rfl | hb
      · exact le_of_lt hlt
      · exact le_trans (le_of_lt hlt) (hx b hb)
    · rename_i hnlt
      refine List.pairwise_cons.2 ⟨?_, ih hxs⟩
      intro b hb
      rcases mem_insertRowByTs.1 hb with rfl | hb
      · exact le_of_not_lt hnlt
      · exact hx b hb

lemma sortRowsByTs_pairwise (l : List Row) :
    (sortRowsByTs l).Pairwise fun a b => a.ts ≤ b.ts := by
  suffices h : ∀ (l acc : List Row), (acc.Pairwise fun a b => a.ts ≤ b.ts) →
      ((l.foldl (fun a r => insertRowByTs r a) acc).Pairwise
        fun a b => a.ts ≤ b.ts) by
    exact h l [] (by simp)
  intro l
  induction l with
  | nil => intro acc ha; simpa using ha
  | cons x xs ih => intro acc ha; exact ih _ (pairwise_insertRowByTs ha)

lemma sortRowsByTs_length (l : List Row) :
    (sortRowsByTs l).length = l.length := by
  suffices h : ∀ (l acc : List Row),
      (l.foldl (fun a r => insertRowByTs r a) acc).length =
        acc.length + l.length by
    simpa using h l []
  intro l
  induction l with
  | nil => intro acc; simp
  | cons x xs ih =>
    intro acc
    simp only [List.foldl_cons, ih, length_insertRowByTs, List.length_cons]
    omega

/-! ## Claim C10: loader post-processing -/

/-- C10, counterexample.  Two rows sharing a timestamp both survive the
loader's post-processing: nothing drops duplicate timestamps, where the
claim demands deduplication keeping the last occurrence (which would
leave a single row). -/
theorem claim10_counterexample :
    loadPostProcess [dupRow1, dupRow2] "X" =
      [{ dupRow1 with symbol := "X" }, { dupRow2 with symbol := "X" }] ∧
    dupRow1.ts = dupRow2.ts ∧
    (loadPostProcess [dupRow1, dupRow2] "X").length ≠ 1 := by
  refine ⟨by decide, by decide, by decide⟩

/-- C10, amended: the crypto loader's post-processing parses timestamps,
sorts the rows ascending by timestamp and attaches the symbol tag to
every row, keeping every input row — rows with duplicate timestamps are
retained, not dropped. -/
theorem claim10_postprocess (rows : List Row) (pair : String) :
    (loadPostProcess rows pair).length = rows.length ∧
    ((loadPostProcess rows pair).Pairwise fun a b => a.ts ≤ b.ts) ∧
    ∀ r ∈ loadPostProcess rows pair, r.symbol = pair := by
  refine ⟨?_, ?_, ?_⟩
  · simp [loadPostProcess, sortRowsByTs_length]
  · unfold loadPostProcess
    rw [List.pairwise_map]
    exact (sortRowsByTs_pairwise rows).imp fun h => h
  · intro r hr
    unfold loadPostProcess at hr
    obtain ⟨x, _, rfl⟩ := List.mem_map.1 hr
    rfl

/-! ## Claim C3: the safety-order ladder scenario -/

/-- C3, counterexample.  On the spec's scenario (entry 100, closes 94
and 88, deviation 5 percent, volume scale 2, step scale 1) the kernel
fills safety order 1 with size 1000 (not 2000) at close 94, fills
nothing at close 88, and leaves total cost 2000 — not the claimed
7000 after two fills of sizes 2000 and 4000. -/
theorem claim3_counterexample :
    ((runFirstPass soCfg [soRow1, soRow2, soRow3]).events.map
      fun e => (e.action, e.price, e.amount)) =
      [(.buy, 100, 1000), (.safetyOrder 1, 94, 1000)] ∧
    ((getAssoc (runFirstPass soCfg [soRow1, soRow2, soRow3]).activeTrades
      "X").map fun t => t.totalAmount) = some 2000 ∧
    ¬ (((getAssoc (runFirstPass soCfg [soRow1, soRow2, soRow3]).activeTrades
      "X").map fun t => t.totalAmount) = some 7000) := by
  norm_num +decide [runFirstPass, stepRow, stepRow.markToMarket, initState,
    soCfg, soRow1, soRow2, soRow3, cooldownSkip, getAssoc, updAssoc, delAssoc,
    admitCandidates, sortByClose, insertByClose, openDeal, mkDeal, activeBranch,
    slGuard, timeoutGuard, condExitSignal, condMinProfitOK, condProfitPercent,
    tpGuard, hourHeartbeat, soLadder, countSoTriggers, execSoFills, closeDeal,
    checkAllUserConditions, checkCond, alwaysCond, Config.hasEntryConditions,
    Config.hasExitConditions, Config.hasSafetyConditions, Config.entryTf,
    Config.soTf, Config.devFrac, Config.slFrac, Config.tpFrac,
    getHighestTimeframe, getTfPriority, Cond.subStr, Cond.subNum,
    Cond.subRender, cryptoTfCloseCol, tfSuffix, truthyCell, Val.truthy, vlt,
    vgt, vle, vge, Row.get, Row.getNumD, tinyEps, lookupD, addPos, lastRowTs,
    scnCells, Val.toRatD]

/-- C3, amended: on the scenario the first bar below the 95 trigger
fills safety order 1 with the unscaled size 1000 at close 94
(`last_so_size` starts at `safety_order_size` and is scaled only after a
fill, to 2000); because `so_dev_factor` is initialised to
`price_deviation` itself, the next trigger after the fill is
`94 * (1 - (5 * 5)/100) = 70.5`, so the bar at 88 fills nothing and the
deal ends with total cost 2000. -/
theorem claim3_ladder :
    ((runFirstPass soCfg [soRow1, soRow2, soRow3]).events.map
      fun e => (e.action, e.price, e.amount)) =
      [(.buy, 100, 1000), (.safetyOrder 1, 94, 1000)] ∧
    ((getAssoc (runFirstPass soCfg [soRow1, soRow2, soRow3]).activeTrades
      "X").map fun t =>
        (t.totalAmount, t.nextSoPrice, t.soDevFactor, t.lastSoSize,
          t.placedSoCount)) = some (2000, some (141/2), 5, 2000, 1) ∧
    (141/2 : ℚ) = 94 * (1 - (5 * (5 * 1)) / 100) := by
  norm_num +decide [runFirstPass, stepRow, stepRow.markToMarket, initState,
    soCfg, soRow1, soRow2, soRow3, cooldownSkip, getAssoc, updAssoc, delAssoc,
    admitCandidates, sortByClose, insertByClose, openDeal, mkDeal, activeBranch,
    slGuard, timeoutGuard, condExitSignal, condMinProfitOK, condProfitPercent,
    tpGuard, hourHeartbeat, soLadder, countSoTriggers, execSoFills, closeDeal,
    checkAllUserConditions, checkCond, alwaysCond, Config.hasEntryConditions,
    Config.hasExitConditions, Config.hasSafetyConditions, Config.entryTf,
    Config.soTf, Config.devFrac, Config.slFrac, Config.tpFrac,
    getHighestTimeframe, getTfPriority, Cond.subStr, Cond.subNum,
    Cond.subRender, cryptoTfCloseCol, tfSuffix, truthyCell, Val.truthy, vlt,
    vgt, vle, vge, Row.get, Row.getNumD, tinyEps, lookupD, addPos, lastRowTs,
    scnCells, Val.toRatD]

/-! ## Lemmas about the hourly-heartbeat block -/

lemma hourHeartbeat_preserves (st : KernelState) (row : Row) :
    (hourHeartbeat st row).real = st.real ∧
    (hourHeartbeat st row).freeCash = st.freeCash ∧
    (hourHeartbeat st row).activeTrades = st.activeTrades ∧
    (hourHeartbeat st row).currentCandidates = st.currentCandidates ∧
    (hourHeartbeat st row).globalActiveDeals = st.globalActiveDeals ∧
    (hourHeartbeat st row).lastCloseTime = st.lastCloseTime ∧
    (hourHeartbeat st row).positionsBySymbol = st.positionsBySymbol ∧
    (hourHeartbeat st row).balance = st.balance := by
  unfold hourHeartbeat
  repeat' split
  all_goals exact ⟨rfl, rfl, rfl, rfl, rfl, rfl, rfl, rfl⟩

lemma hourHeartbeat_events (st : KernelState) (row : Row) :
    ∃ l, (hourHeartbeat st row).events = st.events ++ l ∧
      ∀ e ∈ l, e.action = .hourCheck := by
  unfold hourHeartbeat
  repeat' split
  all_goals first
    | exact ⟨_, rfl, by rintro e he; simp at he; subst he; rfl⟩
    | exact ⟨[], by simp, by simp⟩

/-! ## Claim C4: take-profit exits at the stored trigger price -/

/-- C4, confirmed: when the earlier exit checks do not fire, price-change
exit is active and the close reaches the stored trigger, the active-deal
branch emits one "Take Profit EXIT" event whose price is the trigger and
whose amount is trigger times quantity, and the realized balance and
free cash move by trigger-price-based quantities, not close-based
ones. -/
theorem claim4_take_profit_at_trigger (cfg : Config) (st : KernelState)
    (row : Row) (prev : Option Row) (trade : Trade) (tp : ℚ)
    (hsl : slGuard cfg trade row.ts row.close = false)
    (hto : timeoutGuard cfg trade row.ts = false)
    (hcond : (condExitSignal cfg row prev &&
      condMinProfitOK cfg trade row.close) = false)
    (hpca : cfg.priceChangeActive = true)
    (hth : trade.takeProfitThreshold = some tp)
    (hge : row.close ≥ tp) :
    (∃ ev : TradeEvent,
      (activeBranch cfg st row prev trade).1.events =
        (hourHeartbeat st row).events ++ [ev] ∧
      ev.action = .takeProfitExit ∧ ev.price = tp ∧
      ev.amount = tp * trade.quantity ∧ ev.quantity = trade.quantity) ∧
    (activeBranch cfg st row prev trade).1.real =
      st.real + (tp * trade.quantity * (1 - cfg.tradingFee) - trade.totalAmount) ∧
    (activeBranch cfg st row prev trade).1.freeCash =
      st.freeCash + tp * trade.quantity * (1 - cfg.tradingFee) ∧
    (activeBranch cfg st row prev trade).2 = true := by
  have htp : tpGuard cfg trade row.close = true := by
    unfold tpGuard
    rw [hpca, hth]
    simpa using hge
  have hab : activeBranch cfg st row prev trade =
      (closeDeal cfg (hourHeartbeat st row) row trade .takeProfitExit tp
        s!"Take profit triggered at {cfg.targetProfit} percent", true) := by
    unfold activeBranch
    simp [hsl, hto, hcond, htp, hth]
  obtain ⟨hr, hf, -⟩ := hourHeartbeat_preserves st row
  rw [hab]
  refine ⟨⟨_, rfl, rfl, rfl, rfl, rfl⟩, ?_, ?_, rfl⟩
  · show (hourHeartbeat st row).real +
      (tp * trade.quantity * (1 - cfg.tradingFee) - trade.totalAmount) = _
    rw [hr]
  · show (hourHeartbeat st row).freeCash +
      tp * trade.quantity * (1 - cfg.tradingFee) = _
    rw [hf]

/-- C4, witness: the take-profit branch fired on a concrete deal with
trigger 110 and close 120. -/
theorem claim4_take_profit_at_trigger_witness :
    tpRow.close ≥ (110 : ℚ) ∧
    (activeBranch tpCfg (initState tpCfg) tpRow none tpTrade).2 = true :=
  ⟨by decide,
    (claim4_take_profit_at_trigger tpCfg (initState tpCfg) tpRow none tpTrade 110
      (by decide) (by decide) (by decide) (by decide) (by decide)
      (by decide)).2.2.2⟩

/-! ## Claim C9: the accountant's extra exit-fee debit -/

/-- C9, confirmed: on every exit event the accountant's realized balance
moves by position times price times one minus the fee, minus trade size
times one plus the fee, minus an additional exit-fee debit of order size
(position times price) times the fee — that is, the recorded profit_loss
minus order_size times the fee; with a positive fee and a positive order
size the realized balance therefore ends strictly below the prior value
plus the recorded profit_loss, whereas the first-pass kernel's
`closeDeal` adds its profit_loss alone. -/
theorem claim9_exit_fee_debit (cfg : Config) (st : LedgerState)
    (e : TradeEvent) (h : e.action.isExitAction = true) :
    ((ledgerStep cfg st e).real =
      st.real + (ledgerAccum cfg st e).position * e.price * (1 - cfg.tradingFee)
        - (ledgerAccum cfg st e).tradeSize * (1 + cfg.tradingFee)
        - (ledgerAccum cfg st e).position * e.price * cfg.tradingFee) ∧
    ((ledgerStep cfg st e).real =
      st.real +
        (((ledgerAccum cfg st e).position * e.price) * (1 - cfg.tradingFee)
          - (ledgerAccum cfg st e).tradeSize * (1 + cfg.tradingFee))
        - ((ledgerAccum cfg st e).position * e.price) * cfg.tradingFee) ∧
    ((ledgerStep cfg st e).records.getLast?.map OutRec.profitLoss =
      some (((ledgerAccum cfg st e).position * e.price) * (1 - cfg.tradingFee)
        - (ledgerAccum cfg st e).tradeSize * (1 + cfg.tradingFee))) ∧
    (0 < cfg.tradingFee → 0 < (ledgerAccum cfg st e).position * e.price →
      (ledgerStep cfg st e).real <
        st.real +
          (((ledgerAccum cfg st e).position * e.price) * (1 - cfg.tradingFee)
            - (ledgerAccum cfg st e).tradeSize * (1 + cfg.tradingFee))) ∧
    (∀ (st' : KernelState) (row : Row) (trade : Trade) (a : Action)
      (price : ℚ) (comment : String),
      (closeDeal cfg st' row trade a price comment).real =
        st'.real + (price * trade.quantity * (1 - cfg.tradingFee)
          - trade.totalAmount)) := by
  have hb : e.action.isBuyOrEntry = false := by
    cases ha : e.action <;> simp_all [Action.isExitAction, Action.isBuyOrEntry]
  have hstep : ledgerStep cfg st e =
      ledgerTail cfg st e (updAssoc st.lastClose e.symbol e.price)
        (updAssoc
          (match getAssoc st.tradeAccum e.tradeId with
            | some _ => st.tradeAccum
            | none => updAssoc st.tradeAccum e.tradeId (ledgerAccum cfg st e))
          e.tradeId
          { ledgerAccum cfg st e with position := 0, tradeSize := 0 })
        (addPos st.positionsBySymbol e.symbol (-(ledgerAccum cfg st e).position))
        (if ((ledgerAccum cfg st e).position * e.price) * (1 - cfg.tradingFee)
            - (ledgerAccum cfg st e).tradeSize * (1 + cfg.tradingFee) < 0 then
          st.balance + (((ledgerAccum cfg st e).position * e.price) *
            (1 - cfg.tradingFee) - (ledgerAccum cfg st e).tradeSize *
            (1 + cfg.tradingFee)) * (cfg.riskReduction / 100)
        else if 0 < ((ledgerAccum cfg st e).position * e.price) *
            (1 - cfg.tradingFee) - (ledgerAccum cfg st e).tradeSize *
            (1 + cfg.tradingFee) then
          st.balance + (((ledgerAccum cfg st e).position * e.price) *
            (1 - cfg.tradingFee) - (ledgerAccum cfg st e).tradeSize *
            (1 + cfg.tradingFee)) * (cfg.reinvestProfit / 100)
        else st.balance)
        (st.real + (((ledgerAccum cfg st e).position * e.price) *
          (1 - cfg.tradingFee) - (ledgerAccum cfg st e).tradeSize *
          (1 + cfg.tradingFee)) -
          ((ledgerAccum cfg st e).position * e.price) * cfg.tradingFee)
        (st.freeCash + ((ledgerAccum cfg st e).position * e.price) *
          (1 - cfg.tradingFee))
        ((ledgerAccum cfg st e).position * e.price)
        (((ledgerAccum cfg st e).position * e.price) * (1 - cfg.tradingFee)
          - (ledgerAccum cfg st e).tradeSize * (1 + cfg.tradingFee))
        (-(ledgerAccum cfg st e).position)
        { ledgerAccum cfg st e with position := 0, tradeSize := 0 } := by
    unfold ledgerStep
    simp [hb, h]
  refine ⟨?_, ?_, ?_, ?_, ?_⟩
  · rw [hstep]
    show st.real + _ - _ = _
    ring
  · rw [hstep]
    rfl
  · rw [hstep]
    unfold ledgerTail
    simp [List.getLast?_concat]
  · intro hfee hpos
    rw [hstep]
    show st.real + _ - _ < _
    have := mul_pos hpos hfee
    linarith
  · intro st' row trade a price comment
    rfl

/-- C9, witness: the exit formula applied to a concrete SELL event with
trading fee 1 percent. -/
theorem claim9_exit_fee_debit_witness :
    ledExitEvent.action.isExitAction = true ∧
    (∀ (st' : KernelState) (row : Row) (trade : Trade) (a : Action)
      (price : ℚ) (comment : String),
      (closeDeal tpCfg st' row trade a price comment).real =
        st'.real + (price * trade.quantity * (1 - tpCfg.tradingFee)
          - trade.totalAmount)) :=
  ⟨by decide,
    (claim9_exit_fee_debit tpCfg (initLedger tpCfg) ledExitEvent
      (by decide)).2.2.2.2⟩


/-! ## Association-list lemmas -/

section AssocLemmas

variable {α : Type} {β : Type} [DecidableEq α]

lemma getAssoc_eq_none_of_not_mem {m : List (α × β)} {k : α}
    (h : k ∉ m.map Prod.fst) : getAssoc m k = none := by
  induction m with
  | nil => rfl
  | cons p rest ih =>
    rw [List.map_cons, List.mem_cons] at h
    push_neg at h
    unfold getAssoc
    rw [if_neg fun hk => h.1 hk.symm]
    exact ih h.2

lemma getAssoc_delAssoc_self {m : List (α × β)} {k : α}
    (h : (m.map Prod.fst).Nodup) : getAssoc (delAssoc m k) k = none := by
  induction m with
  | nil => rfl
  | cons p rest ih =>
    rw [List.map_cons, List.nodup_cons] at h
    unfold delAssoc
    by_cases hk : p.1 = k
    · rw [if_pos hk]
      exact getAssoc_eq_none_of_not_mem (hk ▸ h.1)
    · rw [if_neg hk]
      unfold getAssoc
      rw [if_neg hk]
      exact ih h.2

lemma delAssoc_map_fst_sublist (m : List (α × β)) (k : α) :
    ((delAssoc m k).map Prod.fst).Sublist (m.map Prod.fst) := by
  induction m with
  | nil => simp [delAssoc]
  | cons p rest ih =>
    unfold delAssoc
    by_cases hk : p.1 = k
    · rw [if_pos hk]
      simp
    · rw [if_neg hk]
      simpa using ih

lemma nodup_delAssoc {m : List (α × β)} {k : α}
    (h : (m.map Prod.fst).Nodup) : ((delAssoc m k).map Prod.fst).Nodup :=
  (delAssoc_map_fst_sublist m k).nodup h

lemma getAssoc_updAssoc_self (m : List (α × β)) (k : α) (v : β) :
    getAssoc (updAssoc m k v) k = some v := by
  induction m with
  | nil => simp [updAssoc, getAssoc]
  | cons p rest ih =>
    unfold updAssoc
    by_cases hk : p.1 = k
    · rw [if_pos hk]
      simp [getAssoc]
    · rw [if_neg hk]
      unfold getAssoc
      rw [if_neg hk]
      exact ih

lemma getAssoc_updAssoc_ne (m : List (α × β)) {k k' : α} (v : β)
    (h : k ≠ k') : getAssoc (updAssoc m k v) k' = getAssoc m k' := by
  induction m with
  | nil => simp [updAssoc, getAssoc, h]
  | cons p rest ih =>
    unfold updAssoc
    by_cases hk : p.1 = k
    · rw [if_pos hk]
      unfold getAssoc
      rw [if_neg h, if_neg (hk ▸ h)]
    · rw [if_neg hk]
      unfold getAssoc
      split
      · rfl
      · exact ih

lemma getAssoc_delAssoc_ne (m : List (α × β)) {k k' : α}
    (h : k ≠ k') : getAssoc (delAssoc m k) k' = getAssoc m k' := by
  induction m with
  | nil => rfl
  | cons p rest ih =>
    unfold delAssoc
    by_cases hk : p.1 = k
    · rw [if_pos hk]
      conv_rhs => unfold getAssoc
      rw [if_neg fun hkk => h (hk.symm.trans hkk)]
    · rw [if_neg hk]
      unfold getAssoc
      split
      · rfl
      · exact ih

end AssocLemmas



lemma execSoFills_shape (cfg : Config) (row : Row) (soPx : ℚ) (k : ℕ) :
    ∀ (st : KernelState) (trade : Trade) (soSize : ℚ)
      (base : List TradeEvent) (ats : List (String × Trade)) (cands : List Row),
      (∃ l, st.events = base ++ l ∧ ∀ e ∈ l, ∃ m, e.action = .safetyOrder m) →
      st.activeTrades = ats → st.currentCandidates = cands →
      ((∃ l, (execSoFills cfg row soPx k st trade soSize).1.events = base ++ l ∧
          ∀ e ∈ l, ∃ m, e.action = .safetyOrder m) ∧
        (execSoFills cfg row soPx k st trade soSize).1.activeTrades = ats ∧
        (execSoFills cfg row soPx k st trade soSize).1.currentCandidates = cands) := by
  induction k with
  | zero =>
    intro st trade soSize base ats cands he ha hc
    exact ⟨he, ha, hc⟩
  | succ n ih =>
    intro st trade soSize base ats cands he ha hc
    obtain ⟨l0, h0, ha0⟩ := he
    rw [execSoFills]
    refine ih _ _ _ _ _ _ ⟨l0 ++ [?ev], ?heq, ?hmem⟩ ?hats ?hcands
    case heq =>
      rw [← List.append_assoc, ← h0]
      exact rfl
    case hmem =>
      intro e hemem
      rcases List.mem_append.1 hemem with hel | hev
      · exact ha0 e hel
      · rw [List.mem_singleton.1 hev]
        exact ⟨trade.placedSoCount + 1, rfl⟩
    case hats => exact ha
    case hcands => exact hc

lemma execSoFills_events_cands (cfg : Config) (row : Row) (soPx : ℚ) (k : ℕ)
    (st : KernelState) (trade : Trade) (soSize : ℚ) :
    (∃ l, (execSoFills cfg row soPx k st trade soSize).1.events =
        st.events ++ l ∧ ∀ e ∈ l, ∃ m, e.action = .safetyOrder m) ∧
    (execSoFills cfg row soPx k st trade soSize).1.currentCandidates =
      st.currentCandidates := by
  obtain ⟨a, b, c⟩ := execSoFills_shape cfg row soPx k st trade soSize
    st.events st.activeTrades st.currentCandidates ⟨[], by simp, by simp⟩ rfl rfl
  exact ⟨a, c⟩

lemma soLadder_shape (cfg : Config) (st : KernelState) (row : Row)
    (prev : Option Row) (trade : Trade) :
    (∃ l, (soLadder cfg st row prev trade).1.events = st.events ++ l ∧
      ∀ e ∈ l, ∃ m, e.action = .safetyOrder m) ∧
    (soLadder cfg st row prev trade).1.currentCandidates =
      st.currentCandidates := by
  unfold soLadder
  dsimp only
  repeat' split
  all_goals try exact ⟨⟨[], by simp, by simp⟩, rfl⟩
  all_goals exact execSoFills_events_cands cfg row _ _ st trade trade.lastSoSize



lemma closeDeal_shape (cfg : Config) (st : KernelState) (row : Row)
    (trade : Trade) (a : Action) (price : ℚ) (comment : String) :
    ∃ ev : TradeEvent,
      (closeDeal cfg st row trade a price comment).events = st.events ++ [ev] ∧
      ev.action = a ∧
      (closeDeal cfg st row trade a price comment).activeTrades =
        delAssoc st.activeTrades row.symbol ∧
      (closeDeal cfg st row trade a price comment).currentCandidates =
        st.currentCandidates :=
  ⟨_, rfl, rfl, rfl, rfl⟩

lemma tpGuard_some {cfg : Config} {trade : Trade} {px : ℚ}
    (h : tpGuard cfg trade px = true) :
    ∃ tp, trade.takeProfitThreshold = some tp := by
  unfold tpGuard at h
  cases hth : trade.takeProfitThreshold with
  | none => rw [hth] at h; simp at h
  | some tp => exact ⟨tp, rfl⟩

/-- C2, confirmed: within one bar for a symbol holding an active deal,
the exit checks run in the order stop-loss, timeout, condition exit,
hourly heartbeat, take-profit, safety ladder: the exit events appended
in the bar are exactly the first firing guard of that chain; once an
exit fires the deal slot is cleared, the loop `continue`s and no
safety-order fill (nor any entry logic) runs in that bar; and a
heartbeat event can only appear when stop-loss, timeout and condition
exit all failed. -/
theorem claim2_exit_priority (cfg : Config) (st : KernelState) (row : Row)
    (prev : Option Row) (trade : Trade)
    (hnd : (st.activeTrades.map Prod.fst).Nodup) :
    ((((activeBranch cfg st row prev trade).1.events.drop
        st.events.length).filter fun e => e.action.isExitAction).map
        fun e => e.action) = (firedExit cfg trade row prev).toList ∧
    (firedExit cfg trade row prev ≠ none →
      getAssoc (activeBranch cfg st row prev trade).1.activeTrades
        row.symbol = none ∧
      (activeBranch cfg st row prev trade).2 = true ∧
      ∀ e ∈ (activeBranch cfg st row prev trade).1.events.drop
        st.events.length, e.action.isBuyOrEntry = false) ∧
    (∀ e ∈ (activeBranch cfg st row prev trade).1.events.drop
        st.events.length, e.action = .hourCheck →
      slGuard cfg trade row.ts row.close = false ∧
      timeoutGuard cfg trade row.ts = false ∧
      (condExitSignal cfg row prev &&
        condMinProfitOK cfg trade row.close) = false) ∧
    (activeBranch cfg st row prev trade).1.currentCandidates =
      st.currentCandidates := by
  cases hsl : slGuard cfg trade row.ts row.close with
  | true =>
    obtain ⟨ev, hevents, hact, hat, hcand⟩ := closeDeal_shape cfg st row trade
      .stopLossExit row.close s!"Stop loss triggered at {cfg.stopLossValue} percent"
    have hab : activeBranch cfg st row prev trade =
        (closeDeal cfg st row trade .stopLossExit row.close
          s!"Stop loss triggered at {cfg.stopLossValue} percent", true) := by
      unfold activeBranch
      simp [hsl]
    rw [hab]
    dsimp only
    rw [hevents, List.drop_left]
    refine ⟨?_, ?_, ?_, hcand⟩
    · simp [List.filter, hact, Action.isExitAction, firedExit, hsl]
    · intro _
      refine ⟨?_, rfl, ?_⟩
      · rw [hat]
        exact getAssoc_delAssoc_self hnd
      · intro e he
        rw [List.mem_singleton.1 he, hact]
        rfl
    · intro e he hhc
      rw [List.mem_singleton.1 he] at hhc
      rw [hact] at hhc
      cases hhc
  | false =>
  cases hto : timeoutGuard cfg trade row.ts with
  | true =>
    obtain ⟨ev, hevents, hact, hat, hcand⟩ := closeDeal_shape cfg st row trade
      .timeoutExit row.close
      s!"Deal closed after timeout of {cfg.closeDealAfterTimeout} minutes"
    have hab : activeBranch cfg st row prev trade =
        (closeDeal cfg st row trade .timeoutExit row.close
          s!"Deal closed after timeout of {cfg.closeDealAfterTimeout} minutes",
          true) := by
      unfold activeBranch
      simp [hsl, hto]
    rw [hab]
    dsimp only
    rw [hevents, List.drop_left]
    refine ⟨?_, ?_, ?_, hcand⟩
    · simp [List.filter, hact, Action.isExitAction, firedExit, hsl, hto]
    · intro _
      refine ⟨?_, rfl, ?_⟩
      · rw [hat]
        exact getAssoc_delAssoc_self hnd
      · intro e he
        rw [List.mem_singleton.1 he, hact]
        rfl
    · intro e he hhc
      rw [List.mem_singleton.1 he] at hhc
      rw [hact] at hhc
      cases hhc
  | false =>
  cases hcond : condExitSignal cfg row prev &&
      condMinProfitOK cfg trade row.close with
  | true =>
    obtain ⟨ev, hevents, hact, hat, hcand⟩ := closeDeal_shape cfg st row trade
      .sell row.close (String.append "Exit triggered by conditions"
        (if cfg.minprofToggle then " + min profit" else ""))
    have hab : activeBranch cfg st row prev trade =
        (closeDeal cfg st row trade .sell row.close
          (String.append "Exit triggered by conditions"
            (if cfg.minprofToggle then " + min profit" else "")), true) := by
      unfold activeBranch
      simp [hsl, hto, hcond]
    rw [hab]
    dsimp only
    rw [hevents, List.drop_left]
    refine ⟨?_, ?_, ?_, hcand⟩
    · simp [List.filter, hact, Action.isExitAction, firedExit, hsl, hto, hcond]
    · intro _
      refine ⟨?_, rfl, ?_⟩
      · rw [hat]
        exact getAssoc_delAssoc_self hnd
      · intro e he
        rw [List.mem_singleton.1 he, hact]
        rfl
    · intro e he hhc
      rw [List.mem_singleton.1 he] at hhc
      rw [hact] at hhc
      cases hhc
  | false =>
  obtain ⟨lhb, hhb, hhba⟩ := hourHeartbeat_events st row
  obtain ⟨-, -, hbat, hbcand, -⟩ := hourHeartbeat_preserves st row
  cases htp : tpGuard cfg trade row.close with
  | true =>
    obtain ⟨tp, htpth⟩ := tpGuard_some htp
    obtain ⟨ev, hevents, hact, hat, hcand⟩ := closeDeal_shape cfg
      (hourHeartbeat st row) row trade .takeProfitExit tp
      s!"Take profit triggered at {cfg.targetProfit} percent"
    have hab : activeBranch cfg st row prev trade =
        (closeDeal cfg (hourHeartbeat st row) row trade .takeProfitExit tp
          s!"Take profit triggered at {cfg.targetProfit} percent", true) := by
      unfold activeBranch
      simp [hsl, hto, hcond, htp, htpth]
    rw [hab]
    dsimp only
    have hevents2 : (closeDeal cfg (hourHeartbeat st row) row trade
        .takeProfitExit tp
        s!"Take profit triggered at {cfg.targetProfit} percent").events =
        st.events ++ (lhb ++ [ev]) := by
      rw [hevents, hhb, List.append_assoc]
    rw [hevents2, List.drop_left]
    refine ⟨?_, ?_, ?_, ?_⟩
    · rw [List.filter_append]
      have hlhb : lhb.filter (fun e => e.action.isExitAction) = [] := by
        rw [List.filter_eq_nil_iff]
        intro a ha
        rw [hhba a ha]
        simp [Action.isExitAction]
      rw [hlhb]
      simp [List.filter, hact, Action.isExitAction, firedExit, hsl, hto, hcond, htp]
    · intro _
      refine ⟨?_, rfl, ?_⟩
      · rw [hat, hbat]
        exact getAssoc_delAssoc_self hnd
      · intro e he
        rcases List.mem_append.1 he with h1 | h2
        · rw [hhba e h1]
          rfl
        · rw [List.mem_singleton.1 h2, hact]
          rfl
    · intro e he hhc
      exact ⟨rfl, rfl, rfl⟩
    · rw [hcand, hbcand]
  | false =>
    obtain ⟨⟨lso, hso, hsoa⟩, hslc⟩ := soLadder_shape cfg
      (hourHeartbeat st row) row prev trade
    have hab : activeBranch cfg st row prev trade =
        soLadder cfg (hourHeartbeat st row) row prev trade := by
      unfold activeBranch
      simp [hsl, hto, hcond, htp]
    have hfe : firedExit cfg trade row prev = none := by
      simp [firedExit, hsl, hto, hcond, htp]
    rw [hab, hfe]
    have hevents2 : (soLadder cfg (hourHeartbeat st row) row prev trade).1.events
        = st.events ++ (lhb ++ lso) := by
      rw [hso, hhb, List.append_assoc]
    rw [hevents2, List.drop_left]
    refine ⟨?_, ?_, ?_, ?_⟩
    · rw [List.filter_append]
      have h1 : lhb.filter (fun e => e.action.isExitAction) = [] := by
        rw [List.filter_eq_nil_iff]
        intro a ha
        rw [hhba a ha]
        simp [Action.isExitAction]
      have h2 : lso.filter (fun e => e.action.isExitAction) = [] := by
        rw [List.filter_eq_nil_iff]
        intro a ha
        obtain ⟨m, hm⟩ := hsoa a ha
        rw [hm]
        simp [Action.isExitAction]
      rw [h1, h2]
      rfl
    · intro hne
      exact absurd rfl hne
    · intro e he hhc
      exact ⟨rfl, rfl, rfl⟩
    · rw [hslc, hbcand]

/-- C2, witness: the priority chain applied to a concrete deal/row with
duplicate-free active-trade keys. -/
theorem claim2_exit_priority_witness :
    ((initState tpCfg).activeTrades.map Prod.fst).Nodup ∧
    (activeBranch tpCfg (initState tpCfg) tpRow none tpTrade).1.currentCandidates
      = (initState tpCfg).currentCandidates :=
  ⟨by decide,
    (claim2_exit_priority tpCfg (initState tpCfg) tpRow none tpTrade
      (by decide)).2.2.2⟩


/-! ## Claim C6: accountant stream ordering -/

lemma eventKeyLt_asymm {a b : TradeEvent} (h : eventKeyLt a b) :
    ¬ eventKeyLt b a := by
  unfold eventKeyLt at *
  rcases h with h | ⟨he, hs⟩
  · rintro (h2 | ⟨he2, -⟩)
    · exact absurd h2 (not_lt.2 (le_of_lt h))
    · exact absurd he2 (ne_of_gt h)
  · rintro (h2 | ⟨he2, hs2⟩)
    · rw [he] at h2
      exact lt_irrefl _ h2
    · exact absurd hs2 (lt_asymm hs)

lemma eventKeyLt_trans {a b c : TradeEvent} (h1 : eventKeyLt a b)
    (h2 : eventKeyLt b c) : eventKeyLt a c := by
  unfold eventKeyLt at *
  rcases h1 with h1 | ⟨e1, s1⟩ <;> rcases h2 with h2 | ⟨e2, s2⟩
  · exact Or.inl (lt_trans h1 h2)
  · exact Or.inl (e2 ▸ h1)
  · exact Or.inl (e1 ▸ h2)
  · exact Or.inr ⟨e1.trans e2, lt_trans s1 s2⟩

lemma mem_insertEventByKey {a e : TradeEvent} {l : List TradeEvent} :
    a ∈ insertEventByKey e l ↔ a = e ∨ a ∈ l := by
  induction l with
  | nil => simp [insertEventByKey]
  | cons x xs ih =>
    unfold insertEventByKey
    split
    · simp [List.mem_cons]
    · simp [List.mem_cons, ih]
      tauto

lemma pairwise_insertEventByKey {e : TradeEvent} {l : List TradeEvent}
    (h : l.Pairwise fun a b => ¬ eventKeyLt b a) :
    (insertEventByKey e l).Pairwise fun a b => ¬ eventKeyLt b a := by
  induction l with
  | nil => simp [insertEventByKey]
  | cons x xs ih =>
    rw [List.pairwise_cons] at h
    obtain ⟨hx, hxs⟩ := h
    unfold insertEventByKey
    split
    · rename_i hlt
      refine List.pairwise_cons.2 ⟨?_, List.pairwise_cons.2 ⟨hx, hxs⟩⟩
      intro b hb
      rcases List.mem_cons.1 hb with rfl | hb
      · exact eventKeyLt_asymm hlt
      · intro hbe
        exact hx b hb (eventKeyLt_trans hbe hlt)
    · rename_i hnlt
      refine List.pairwise_cons.2 ⟨?_, ih hxs⟩
      intro b hb
      rcases mem_insertEventByKey.1 hb with rfl | hb
      · exact hnlt
      · exact hx b hb

lemma sortEventsByKey_pairwise (l : List TradeEvent) :
    (sortEventsByKey l).Pairwise fun a b => ¬ eventKeyLt b a := by
  suffices h : ∀ (l acc : List TradeEvent),
      (acc.Pairwise fun a b => ¬ eventKeyLt b a) →
      ((l.foldl (fun acc e => insertEventByKey e acc) acc).Pairwise
        fun a b => ¬ eventKeyLt b a) by
    exact h l [] (by simp)
  intro l
  induction l with
  | nil => intro acc ha; simpa using ha
  | cons x xs ih => intro acc ha; exact ih _ (pairwise_insertEventByKey ha)

/-- C6, amended: the trade-event stream consumed by the accountant is
sorted by the key `(timestamp, symbol)`: within a single timestamp,
events appear in symbol order — so exits do not in general precede BUYs
of the same timestamp (a BUY of a lexicographically earlier symbol comes
first), and same-timestamp BUYs appear in symbol order rather than in
ascending entry-close order. -/
theorem claim6_sorted (cfg : Config) (rows : List Row) :
    (dfTrades cfg rows).Pairwise fun a b =>
      a.ts ≤ b.ts ∧ (a.ts = b.ts → a.symbol ≤ b.symbol) := by
  refine (sortEventsByKey_pairwise _).imp ?_
  intro a b h
  unfold eventKeyLt at h
  push_neg at h
  obtain ⟨h1, h2⟩ := h
  exact ⟨h1, fun he => h2 he.symm⟩

/-- C6, counterexample.  Symbol B's deal (opened at t0, open through
t2) exits by timeout at t2 while symbol A fires a BUY at the same t2; in
the stream the accountant consumes, the BUY of A at t2 precedes the exit
of B's open deal at t2, because the stream is sorted by
`(timestamp, symbol)` — contradicting exits-before-BUYs within a
timestamp (and the BUY order is by symbol, not by entry close). -/
theorem claim6_counterexample :
    ((dfTrades tieCfg [tieRow1, tieRow2, tieRow3, tieRow4]).map
      fun e => (e.ts, e.symbol, e.action, e.tradeId)) =
      [(0, "B", .buy, some ⟨1, "B"⟩),
        (2, "A", .buy, some ⟨2, "A"⟩),
        (2, "B", .timeoutExit, some ⟨1, "B"⟩)] := by
  norm_num +decide [dfTrades, sortEventsByKey, insertEventByKey, eventKeyLt,
    runFirstPass, stepRow, stepRow.markToMarket, initState,
    tieCfg, tieRow1, tieRow2, tieRow3, tieRow4, cooldownSkip, getAssoc,
    updAssoc, delAssoc, admitCandidates, sortByClose, insertByClose, openDeal,
    mkDeal, activeBranch, slGuard, timeoutGuard, condExitSignal,
    condMinProfitOK, condProfitPercent, tpGuard, hourHeartbeat, soLadder,
    countSoTriggers, execSoFills, closeDeal, checkAllUserConditions, checkCond,
    alwaysCond, Config.hasEntryConditions, Config.hasExitConditions,
    Config.hasSafetyConditions, Config.entryTf, Config.soTf, Config.devFrac,
    Config.slFrac, Config.tpFrac, getHighestTimeframe, getTfPriority,
    Cond.subStr, Cond.subNum, Cond.subRender, cryptoTfCloseCol, tfSuffix,
    truthyCell, Val.truthy, vlt, vgt, vle, vge, Row.get, Row.getNumD, tinyEps,
    lookupD, addPos, lastRowTs, scnCells, Val.toRatD, List.take_succ_cons,
    List.take_zero, List.take_nil, Int.toNat]

section AssocLen

variable {α : Type} {β : Type} [DecidableEq α]

lemma mem_keys_updAssoc {m : List (α × β)} {k a : α} {v : β}
    (h : a ∈ (updAssoc m k v).map Prod.fst) :
    a = k ∨ a ∈ m.map Prod.fst := by
  induction m with
  | nil => simpa [updAssoc] using h
  | cons p rest ih =>
    unfold updAssoc at h
    by_cases hk : p.1 = k
    · rw [if_pos hk] at h
      rcases List.mem_cons.1 h with h1 | h1
      · exact Or.inl h1
      · exact Or.inr (List.mem_cons_of_mem _ h1)
    · rw [if_neg hk] at h
      rcases List.mem_cons.1 h with h1 | h1
      · exact Or.inr (h1 ▸ List.mem_cons_self _ _)
      · rcases ih h1 with h2 | h2
        · exact Or.inl h2
        · exact Or.inr (List.mem_cons_of_mem _ h2)

lemma nodup_updAssoc {m : List (α × β)} {k : α} {v : β}
    (h : (m.map Prod.fst).Nodup) :
    ((updAssoc m k v).map Prod.fst).Nodup := by
  induction m with
  | nil => simp [updAssoc]
  | cons p rest ih =>
    rw [List.map_cons, List.nodup_cons] at h
    unfold updAssoc
    by_cases hk : p.1 = k
    · rw [if_pos hk]
      rw [List.map_cons, List.nodup_cons]
      exact ⟨hk ▸ h.1, h.2⟩
    · rw [if_neg hk]
      rw [List.map_cons, List.nodup_cons]
      refine ⟨fun hmem => ?_, ih h.2⟩
      rcases mem_keys_updAssoc hmem with h1 | h1
      · exact hk h1
      · exact h.1 h1

lemma length_updAssoc_le (m : List (α × β)) (k : α) (v : β) :
    (updAssoc m k v).length ≤ m.length + 1 := by
  induction m with
  | nil => simp [updAssoc]
  | cons p rest ih =>
    unfold updAssoc
    by_cases hk : p.1 = k
    · rw [if_pos hk]
      simp
    · rw [if_neg hk]
      simpa using Nat.succ_le_succ ih

lemma length_updAssoc_of_isSome {m : List (α × β)} {k : α} (v : β)
    (h : (getAssoc m k).isSome) : (updAssoc m k v).length = m.length := by
  induction m with
  | nil => simp [getAssoc] at h
  | cons p rest ih =>
    unfold updAssoc
    unfold getAssoc at h
    by_cases hk : p.1 = k
    · rw [if_pos hk]
      rfl
    · rw [if_neg hk]
      rw [if_neg hk] at h
      simpa using ih h

lemma length_delAssoc_of_isSome {m : List (α × β)} {k : α}
    (h : (getAssoc m k).isSome) : (delAssoc m k).length + 1 = m.length := by
  induction m with
  | nil => simp [getAssoc] at h
  | cons p rest ih =>
    unfold delAssoc
    unfold getAssoc at h
    by_cases hk : p.1 = k
    · rw [if_pos hk]
      rfl
    · rw [if_neg hk]
      rw [if_neg hk] at h
      simpa using ih h

end AssocLen

lemma execSoFills_activeTrades (cfg : Config) (row : Row) (soPx : ℚ) (k : ℕ) :
    ∀ (st : KernelState) (trade : Trade) (soSize : ℚ),
      (execSoFills cfg row soPx k st trade soSize).1.activeTrades =
        st.activeTrades := by
  induction k with
  | zero => intro st trade soSize; rfl
  | succ n ih =>
    intro st trade soSize
    rw [execSoFills, ih]

lemma execSoFills_global (cfg : Config) (row : Row) (soPx : ℚ) (k : ℕ) :
    ∀ (st : KernelState) (trade : Trade) (soSize : ℚ),
      (execSoFills cfg row soPx k st trade soSize).1.globalActiveDeals =
        st.globalActiveDeals := by
  induction k with
  | zero => intro st trade soSize; rfl
  | succ n ih =>
    intro st trade soSize
    rw [execSoFills, ih]

lemma inv_closeDeal {cfg : Config} {st : KernelState} {row : Row}
    {trade : Trade} {a : Action} {p : ℚ} {c : String}
    (h : KernelInv cfg st)
    (hmem : (getAssoc st.activeTrades row.symbol).isSome) :
    KernelInv cfg (closeDeal cfg st row trade a p c) := by
  obtain ⟨hnd, hlen, hglob⟩ := h
  refine ⟨nodup_delAssoc hnd, ?_, ?_⟩
  · show ((delAssoc st.activeTrades row.symbol).length : ℤ) ≤
      st.globalActiveDeals - 1
    have := length_delAssoc_of_isSome hmem
    omega
  · show st.globalActiveDeals - 1 ≤ cfg.maxActiveDeals
    omega

lemma inv_hourHeartbeat {cfg : Config} {st : KernelState} {row : Row}
    (h : KernelInv cfg st) : KernelInv cfg (hourHeartbeat st row) := by
  obtain ⟨-, -, hat, -, hg, -⟩ := hourHeartbeat_preserves st row
  unfold KernelInv at *
  rw [hat, hg]
  exact h

lemma inv_soLadder {cfg : Config} {st : KernelState} {row : Row}
    {prev : Option Row} {trade : Trade}
    (h : KernelInv cfg st)
    (hmem : (getAssoc st.activeTrades row.symbol).isSome) :
    KernelInv cfg (soLadder cfg st row prev trade).1 := by
  obtain ⟨hnd, hlen, hglob⟩ := h
  unfold soLadder
  dsimp only
  repeat' split
  all_goals try exact ⟨hnd, hlen, hglob⟩
  all_goals refine ⟨?_, ?_, ?_⟩
  all_goals first
    | (rw [execSoFills_activeTrades]
       exact nodup_updAssoc hnd)
    | (rw [execSoFills_global, execSoFills_activeTrades,
        length_updAssoc_of_isSome _ hmem]
       exact hlen)
    | (rw [execSoFills_global]
       exact hglob)

lemma stepRow_decomp (cfg : Config) (st : KernelState) (row : Row) :
    stepRow cfg st row =
      if decide (row.dailyVolUsdt < cfg.minDailyVolume) then st
      else if cooldownSkip cfg st row then
        { st with lastRowBySymbol := updAssoc st.lastRowBySymbol row.symbol row }
      else
        stepTail cfg row (getAssoc st.lastRowBySymbol row.symbol)
          (admitPhase cfg row
            { st with
              lastRowBySymbol := updAssoc st.lastRowBySymbol row.symbol row,
              lastClose := updAssoc st.lastClose row.symbol row.close }) := rfl

lemma inv_of_eq {cfg : Config} {st st' : KernelState} (h : KernelInv cfg st)
    (h1 : st'.activeTrades = st.activeTrades)
    (h2 : st'.globalActiveDeals = st.globalActiveDeals) : KernelInv cfg st' := by
  unfold KernelInv at *
  rw [h1, h2]
  exact h

lemma openDeal_global (cfg : Config) (t : ℚ) (st : KernelState) (c : Row) :
    (openDeal cfg t st c).globalActiveDeals = st.globalActiveDeals + 1 := rfl

lemma openDeal_nodup {cfg : Config} {t : ℚ} {st : KernelState} {c : Row}
    (h : (st.activeTrades.map Prod.fst).Nodup) :
    ((openDeal cfg t st c).activeTrades.map Prod.fst).Nodup := by
  unfold openDeal
  dsimp only
  exact nodup_updAssoc h

lemma openDeal_len (cfg : Config) (t : ℚ) (st : KernelState) (c : Row) :
    (openDeal cfg t st c).activeTrades.length ≤ st.activeTrades.length + 1 := by
  unfold openDeal
  dsimp only
  exact length_updAssoc_le _ _ _

lemma foldl_openDeal_global (cfg : Config) (t : ℚ) (l : List Row) :
    ∀ st : KernelState, (l.foldl (openDeal cfg t) st).globalActiveDeals =
      st.globalActiveDeals + l.length := by
  induction l with
  | nil => intro st; simp
  | cons r rs ih =>
    intro st
    rw [List.foldl_cons, ih, openDeal_global, List.length_cons]
    push_cast
    ring

lemma foldl_openDeal_nodup_len (cfg : Config) (t : ℚ) (l : List Row) :
    ∀ st : KernelState,
      (st.activeTrades.map Prod.fst).Nodup ∧
        (st.activeTrades.length : ℤ) ≤ st.globalActiveDeals →
      ((l.foldl (openDeal cfg t) st).activeTrades.map Prod.fst).Nodup ∧
        (((l.foldl (openDeal cfg t) st).activeTrades.length : ℤ) ≤
          (l.foldl (openDeal cfg t) st).globalActiveDeals) := by
  induction l with
  | nil => intro st h; exact h
  | cons r rs ih =>
    intro st h
    rw [List.foldl_cons]
    refine ih _ ⟨openDeal_nodup h.1, ?_⟩
    have hle := openDeal_len cfg t st r
    rw [openDeal_global]
    have := h.2
    omega

lemma inv_admitCandidates {cfg : Config} {st : KernelState} (t : ℚ)
    (h : KernelInv cfg st) : KernelInv cfg (admitCandidates cfg t st) := by
  obtain ⟨hnd, hlen, hglob⟩ := h
  have key : ∀ sel : List Row,
      st.globalActiveDeals + (sel.length : ℤ) ≤ cfg.maxActiveDeals →
      KernelInv cfg (sel.foldl (openDeal cfg t) st) := by
    intro sel hcap
    have hg := foldl_openDeal_global cfg t sel st
    have hnl := foldl_openDeal_nodup_len cfg t sel st ⟨hnd, hlen⟩
    refine ⟨hnl.1, hnl.2, ?_⟩
    rw [hg]
    exact hcap
  unfold admitCandidates
  dsimp only
  split
  · rename_i hpos
    refine inv_of_eq (key _ ?_) rfl rfl
    have hl := List.length_take_le
      (cfg.maxActiveDeals - st.globalActiveDeals).toNat
      (sortByClose st.currentCandidates)
    omega
  · refine inv_of_eq (key [] ?_) rfl rfl
    simpa using hglob

lemma inv_activeBranch {cfg : Config} {st : KernelState} {row : Row}
    {prev : Option Row} {trade : Trade}
    (h : KernelInv cfg st)
    (hmem : (getAssoc st.activeTrades row.symbol).isSome) :
    KernelInv cfg (activeBranch cfg st row prev trade).1 := by
  have hat := (hourHeartbeat_preserves st row).2.2.1
  have hg := (hourHeartbeat_preserves st row).2.2.2.2.1
  have h1 : KernelInv cfg (hourHeartbeat st row) := inv_hourHeartbeat h
  have hmem1 : (getAssoc (hourHeartbeat st row).activeTrades row.symbol).isSome := by
    rw [hat]; exact hmem
  unfold activeBranch
  dsimp only
  repeat' split
  all_goals first
    | exact inv_closeDeal h hmem
    | exact inv_closeDeal h1 hmem1
    | exact h1
    | exact inv_soLadder h1 hmem1

lemma inv_admitPhase {cfg : Config} {st : KernelState} {row : Row}
    (h : KernelInv cfg st) : KernelInv cfg (admitPhase cfg row st) := by
  unfold admitPhase
  repeat' split
  all_goals first
    | exact h
    | exact inv_of_eq h rfl rfl
    | exact inv_of_eq (inv_admitCandidates _ h) rfl rfl

lemma inv_stepTail {cfg : Config} {row : Row} {prevRow : Option Row}
    {st : KernelState} (h : KernelInv cfg st) :
    KernelInv cfg (stepTail cfg row prevRow st) := by
  unfold stepTail
  dsimp only
  cases hA : getAssoc st.activeTrades row.symbol with
  | none =>
    dsimp only
    split
    · split
      · rename_i h2; simp at h2
      · split
        · exact inv_of_eq (inv_of_eq h rfl rfl) rfl rfl
        · exact inv_of_eq (inv_of_eq h rfl rfl) rfl rfl
    · split
      · rename_i h2; simp at h2
      · split
        · exact inv_of_eq h rfl rfl
        · exact inv_of_eq h rfl rfl
  | some trade =>
    dsimp only
    have hB : KernelInv cfg (activeBranch cfg st row prevRow trade).1 :=
      inv_activeBranch h (by rw [hA]; rfl)
    split
    · exact hB
    · split
      · exact inv_of_eq hB rfl rfl
      · exact inv_of_eq hB rfl rfl

lemma inv_stepRow {cfg : Config} {st : KernelState} {row : Row}
    (h : KernelInv cfg st) : KernelInv cfg (stepRow cfg st row) := by
  rw [stepRow_decomp]
  split
  · exact h
  split
  · exact inv_of_eq h rfl rfl
  exact inv_stepTail (inv_admitPhase (inv_of_eq h rfl rfl))

lemma inv_foldl_stepRow (cfg : Config) (rows : List Row) :
    ∀ st : KernelState, KernelInv cfg st →
      KernelInv cfg (rows.foldl (stepRow cfg) st) := by
  induction rows with
  | nil => intro st h; exact h
  | cons r rs ih =>
    intro st h
    rw [List.foldl_cons]
    exact ih _ (inv_stepRow h)

lemma inv_initState {cfg : Config} (h0 : 0 ≤ cfg.maxActiveDeals) :
    KernelInv cfg (initState cfg) := by
  refine ⟨?_, ?_, ?_⟩
  · show (([] : List (String × Trade)).map Prod.fst).Nodup
    simp
  · show ((([] : List (String × Trade)).length : ℤ) ≤ 0)
    simp
  · exact h0

lemma inv_runFirstPass {cfg : Config} (rows : List Row)
    (h0 : 0 ≤ cfg.maxActiveDeals) :
    KernelInv cfg (runFirstPass cfg rows) := by
  have h := inv_foldl_stepRow cfg rows (initState cfg) (inv_initState h0)
  unfold runFirstPass
  dsimp only
  split
  · exact h
  · exact inv_admitCandidates _ h

lemma zero_of_eq {st st' : KernelState} (h : ZeroInv st)
    (h1 : st'.activeTrades = st.activeTrades)
    (h2 : st'.globalActiveDeals = st.globalActiveDeals)
    (h3 : st'.events = st.events) : ZeroInv st' := by
  unfold ZeroInv at *
  rw [h1, h2, h3]
  exact h

lemma zero_admitCandidates {cfg : Config} {st : KernelState} (t : ℚ)
    (hmax : cfg.maxActiveDeals = 0) (h : ZeroInv st) :
    ZeroInv (admitCandidates cfg t st) := by
  obtain ⟨hat, hg, hev⟩ := h
  unfold admitCandidates
  dsimp only
  rw [hmax, hg]
  norm_num
  exact ⟨hat, hg, hev⟩

lemma zero_admitPhase {cfg : Config} {st : KernelState} {row : Row}
    (hmax : cfg.maxActiveDeals = 0) (h : ZeroInv st) :
    ZeroInv (admitPhase cfg row st) := by
  unfold admitPhase
  repeat' split
  all_goals first
    | exact h
    | exact zero_of_eq h rfl rfl rfl
    | exact zero_of_eq (zero_admitCandidates _ hmax h) rfl rfl rfl

lemma zero_stepTail {cfg : Config} {row : Row} {prevRow : Option Row}
    {st : KernelState} (h : ZeroInv st) :
    ZeroInv (stepTail cfg row prevRow st) := by
  unfold stepTail
  dsimp only
  cases hA : getAssoc st.activeTrades row.symbol with
  | none =>
    dsimp only
    split
    · split
      · rename_i h2; simp at h2
      · split
        · exact zero_of_eq (zero_of_eq h rfl rfl rfl) rfl rfl rfl
        · exact zero_of_eq (zero_of_eq h rfl rfl rfl) rfl rfl rfl
    · split
      · rename_i h2; simp at h2
      · split
        · exact zero_of_eq h rfl rfl rfl
        · exact zero_of_eq h rfl rfl rfl
  | some trade =>
    rw [h.1] at hA
    simp [getAssoc] at hA

lemma zero_stepRow {cfg : Config} {st : KernelState} {row : Row}
    (hmax : cfg.maxActiveDeals = 0) (h : ZeroInv st) :
    ZeroInv (stepRow cfg st row) := by
  rw [stepRow_decomp]
  split
  · exact h
  split
  · exact zero_of_eq h rfl rfl rfl
  exact zero_stepTail (zero_admitPhase hmax (zero_of_eq h rfl rfl rfl))

lemma zero_foldl_stepRow {cfg : Config} (rows : List Row)
    (hmax : cfg.maxActiveDeals = 0) :
    ∀ st : KernelState, ZeroInv st →
      ZeroInv (rows.foldl (stepRow cfg) st) := by
  induction rows with
  | nil => intro st h; exact h
  | cons r rs ih =>
    intro st h
    rw [List.foldl_cons]
    exact ih _ (zero_stepRow hmax h)

lemma zero_runFirstPass {cfg : Config} (rows : List Row)
    (hmax : cfg.maxActiveDeals = 0) :
    (runFirstPass cfg rows).events = [] := by
  have h := zero_foldl_stepRow rows hmax (initState cfg) ⟨rfl, rfl, rfl⟩
  unfold runFirstPass
  dsimp only
  split
  · exact h.2.2
  · exact (zero_admitCandidates _ hmax h).2.2

lemma filterStep_count {m : ℤ} {st : FilterState} {e : TradeEvent}
    (h : st.activeDealsCount ≤ m) :
    (filterStep m st e).activeDealsCount ≤ m := by
  unfold filterStep
  repeat' split
  all_goals try dsimp only
  all_goals omega

lemma foldl_filterStep_count {m : ℤ} (es : List TradeEvent) :
    ∀ st : FilterState, st.activeDealsCount ≤ m →
      ((es.foldl (filterStep m) st).activeDealsCount ≤ m) := by
  induction es with
  | nil => intro st h; exact h
  | cons e rest ih =>
    intro st h
    rw [List.foldl_cons]
    exact ih _ (filterStep_count h)

/-- C1, confirmed: with a nonnegative `max_active_deals`, after every
prefix of the first-pass loop (and after the final flush) the
active-deal table has pairwise-distinct symbols and its size is bounded
by the running open-deal counter, itself bounded by `max_active_deals`;
along every prefix of the accountant's admission-replay filter the
replayed open-deal count stays bounded by `max_active_deals`; and with
`max_active_deals = 0` the first pass emits no event at all (in
particular no BUY) and the filtered journal is empty. -/
theorem claim1_deal_cap (cfg : Config) (rows : List Row)
    (h0 : 0 ≤ cfg.maxActiveDeals) :
    (∀ n : ℕ,
      KernelInv cfg ((rows.take n).foldl (stepRow cfg) (initState cfg))) ∧
    KernelInv cfg (runFirstPass cfg rows) ∧
    (∀ es : List TradeEvent, ∀ n : ℕ,
      (runFilter cfg.maxActiveDeals (es.take n)).activeDealsCount ≤
        cfg.maxActiveDeals) ∧
    (cfg.maxActiveDeals = 0 →
      (runFirstPass cfg rows).events = [] ∧ dfFiltered cfg rows = []) := by
  refine ⟨?_, ?_, ?_, ?_⟩
  · intro n
    exact inv_foldl_stepRow cfg (rows.take n) (initState cfg) (inv_initState h0)
  · exact inv_runFirstPass rows h0
  · intro es n
    exact foldl_filterStep_count (es.take n) initFilterState h0
  · intro hmax
    have hev := zero_runFirstPass rows hmax
    refine ⟨hev, ?_⟩
    unfold dfFiltered dfTrades
    rw [hev]
    rfl

theorem claim1_deal_cap_witness :
    0 ≤ soCfg.maxActiveDeals ∧ KernelInv soCfg (runFirstPass soCfg []) :=
  ⟨by decide, (claim1_deal_cap soCfg [] (by decide)).2.1⟩

lemma cinv_of_eq {cfg : Config} {st st' : KernelState} {lb : ℚ}
    (h : CInv cfg st lb)
    (h1 : st'.events = st.events)
    (h2 : st'.lastCloseTime = st.lastCloseTime)
    (h3 : st'.currentCandidates = st.currentCandidates)
    (h4 : st'.activeTrades = st.activeTrades) : CInv cfg st' lb := by
  unfold CInv at *
  rw [h1, h2, h3, h4]
  exact h

lemma cinv_mono {cfg : Config} {st : KernelState} {lb lb' : ℚ}
    (h : CInv cfg st lb) (hle : lb ≤ lb') : CInv cfg st lb' :=
  ⟨h.1, fun s t ht => le_trans (h.2.1 s t ht) hle, h.2.2⟩

lemma pairwise_append_of_right {R : TradeEvent → TradeEvent → Prop}
    {l1 l2 : List TradeEvent} (h1 : l1.Pairwise R)
    (h2 : ∀ b ∈ l2, ∀ a, R a b) : (l1 ++ l2).Pairwise R := by
  rw [List.pairwise_append]
  refine ⟨h1, ?_, fun a _ b hb => h2 b hb a⟩
  induction l2 with
  | nil => exact List.Pairwise.nil
  | cons b bs ih =>
    refine List.Pairwise.cons (fun x hx => h2 x (List.mem_cons_of_mem b hx) b) ?_
    exact ih fun x hx a => h2 x (List.mem_cons_of_mem b hx) a

lemma execSoFills_lct (cfg : Config) (row : Row) (soPx : ℚ) (k : ℕ) :
    ∀ (st : KernelState) (trade : Trade) (soSize : ℚ),
      (execSoFills cfg row soPx k st trade soSize).1.lastCloseTime =
        st.lastCloseTime := by
  induction k with
  | zero => intro st trade soSize; rfl
  | succ n ih =>
    intro st trade soSize
    rw [execSoFills, ih]

lemma foldl_openDeal_lct (cfg : Config) (t : ℚ) (l : List Row) :
    ∀ st : KernelState,
      (l.foldl (openDeal cfg t) st).lastCloseTime = st.lastCloseTime := by
  induction l with
  | nil => intro st; rfl
  | cons r rs ih =>
    intro st
    rw [List.foldl_cons, ih]
    rfl

lemma admitCandidates_lct (cfg : Config) (t : ℚ) (st : KernelState) :
    (admitCandidates cfg t st).lastCloseTime = st.lastCloseTime := by
  unfold admitCandidates
  dsimp only
  rw [foldl_openDeal_lct]

lemma admitPhase_lct (cfg : Config) (row : Row) (st : KernelState) :
    (admitPhase cfg row st).lastCloseTime = st.lastCloseTime := by
  unfold admitPhase
  repeat' split
  all_goals first
    | rfl
    | (show (admitCandidates cfg row.ts st).lastCloseTime = st.lastCloseTime
       exact admitCandidates_lct cfg row.ts st)

lemma cooldownSkip_congr {cfg : Config} {st st' : KernelState} {row : Row}
    (h : st'.lastCloseTime = st.lastCloseTime) :
    cooldownSkip cfg st' row = cooldownSkip cfg st row := by
  unfold cooldownSkip
  rw [h]

lemma mem_insertByClose {a r : Row} {l : List Row} :
    a ∈ insertByClose r l → a = r ∨ a ∈ l := by
  induction l with
  | nil =>
    intro h
    simp [insertByClose] at h
    exact Or.inl h
  | cons x xs ih =>
    unfold insertByClose
    split
    · intro h
      rcases List.mem_cons.1 h with h1 | h2
      · exact Or.inr (h1 ▸ List.mem_cons_self x xs)
      · rcases ih h2 with h3 | h4
        · exact Or.inl h3
        · exact Or.inr (List.mem_cons_of_mem x h4)
    · intro h
      rcases List.mem_cons.1 h with h1 | h2
      · exact Or.inl h1
      · exact Or.inr h2

lemma mem_sortByClose {a : Row} {l : List Row} :
    a ∈ sortByClose l → a ∈ l := by
  induction l with
  | nil => intro h; simp [sortByClose] at h
  | cons r rs ih =>
    intro h
    rcases mem_insertByClose h with h1 | h2
    · exact h1 ▸ List.mem_cons_self r rs
    · exact List.mem_cons_of_mem r (ih h2)

lemma foldl_openDeal_cooldown (cfg : Config) (T : ℚ) (l : List Row) :
    ∀ st : KernelState,
      st.events.Pairwise (cooldownOK cfg.cooldown) →
      (∀ e ∈ st.events, e.action.isExitAction = true →
        ∃ t, getAssoc st.lastCloseTime e.symbol = some t ∧ e.ts ≤ t) →
      (∀ c ∈ l, ∀ e ∈ st.events, e.action.isExitAction = true →
        e.symbol = c.symbol → e.ts + cfg.cooldown ≤ c.ts) →
      (l.foldl (openDeal cfg T) st).events.Pairwise (cooldownOK cfg.cooldown) ∧
      (∀ e ∈ (l.foldl (openDeal cfg T) st).events,
        e.action.isExitAction = true →
        ∃ t, getAssoc (l.foldl (openDeal cfg T) st).lastCloseTime e.symbol =
          some t ∧ e.ts ≤ t) := by
  induction l with
  | nil => intro st hA hB2 _; exact ⟨hA, hB2⟩
  | cons c cs ih =>
    intro st hA hB2 hsep
    rw [List.foldl_cons]
    have hops : (openDeal cfg T st c).events = st.events ++
        [{ ts := c.ts, symbol := c.symbol, action := .buy,
           price := if cfg.entryTf = "1m" then c.close
             else c.getNumD ("close_" ++ cfg.entryTf) 0,
           quantity := _, amount := _, totalAmount := _,
           profitPercent := none, moveFromEntry := 0,
           tradeId := some ⟨st.tradeIdCounter + 1, c.symbol⟩,
           comment := "Condition-based Entry" }] := rfl
    refine ih (openDeal cfg T st c) ?_ ?_ ?_
    · rw [hops, List.pairwise_append]
      refine ⟨hA, List.pairwise_singleton _ _, ?_⟩
      intro a ha b hb
      rw [List.mem_singleton.1 hb]
      intro hexit hbuy hsym
      exact hsep c (List.mem_cons_self c cs) a ha hexit hsym
    · intro e he hexit
      rw [hops] at he
      rcases List.mem_append.1 he with h1 | h2
      · obtain ⟨t, hget, hle⟩ := hB2 e h1 hexit
        exact ⟨t, by rw [show (openDeal cfg T st c).lastCloseTime =
          st.lastCloseTime from rfl]; exact hget, hle⟩
      · rw [List.mem_singleton.1 h2] at hexit
        exact Bool.noConfusion (show false = true from hexit)
    · intro x hx e he hexit hsym
      rw [hops] at he
      rcases List.mem_append.1 he with h1 | h2
      · exact hsep x (List.mem_cons_of_mem c hx) e h1 hexit hsym
      · rw [List.mem_singleton.1 h2] at hexit
        exact Bool.noConfusion (show false = true from hexit)

lemma closeDeal_fields (cfg : Config) (st : KernelState) (row : Row)
    (trade : Trade) (a : Action) (price : ℚ) (comment : String) :
    ∃ ev : TradeEvent,
      (closeDeal cfg st row trade a price comment).events = st.events ++ [ev] ∧
      ev.action = a ∧ ev.ts = row.ts ∧ ev.symbol = row.symbol ∧
      (closeDeal cfg st row trade a price comment).activeTrades =
        delAssoc st.activeTrades row.symbol ∧
      (closeDeal cfg st row trade a price comment).lastCloseTime =
        updAssoc st.lastCloseTime row.symbol row.ts ∧
      (closeDeal cfg st row trade a price comment).currentCandidates =
        st.currentCandidates :=
  ⟨_, rfl, rfl, rfl, rfl, rfl, rfl, rfl⟩

lemma cinv_admitCandidates {cfg : Config} {st : KernelState} {lb : ℚ} (t : ℚ)
    (h : CInv cfg st lb) : CInv cfg (admitCandidates cfg t st) lb := by
  obtain ⟨hA, hB1, hB2, hC, hE⟩ := h
  have key : ∀ sel : List Row, (∀ c ∈ sel, c ∈ st.currentCandidates) →
      (sel.foldl (openDeal cfg t) st).events.Pairwise (cooldownOK cfg.cooldown) ∧
      (∀ e ∈ (sel.foldl (openDeal cfg t) st).events,
        e.action.isExitAction = true →
        ∃ t2, getAssoc (sel.foldl (openDeal cfg t) st).lastCloseTime e.symbol =
          some t2 ∧ e.ts ≤ t2) := by
    intro sel hsel
    exact foldl_openDeal_cooldown cfg t sel st hA hB2
      (fun c hc => hC c (hsel c hc))
  unfold admitCandidates
  dsimp only
  split
  · obtain ⟨hA2, hB22⟩ := key _
      (fun c hc => mem_sortByClose (List.take_subset _ _ hc))
    refine ⟨hA2, ?_, hB22, ?_, ?_⟩
    · intro s t2 ht2
      refine hB1 s t2 ?_
      rw [← foldl_openDeal_lct cfg t
        ((sortByClose st.currentCandidates).take
          (cfg.maxActiveDeals - st.globalActiveDeals).toNat) st]
      exact ht2
    · intro c hc
      exact absurd hc (List.not_mem_nil c)
    · intro c hc
      exact absurd hc (List.not_mem_nil c)
  · refine ⟨hA, hB1, hB2, ?_, ?_⟩
    · intro c hc
      exact absurd hc (List.not_mem_nil c)
    · intro c hc
      exact absurd hc (List.not_mem_nil c)

lemma cinv_closeDeal {cfg : Config} {st : KernelState} {row : Row}
    {trade : Trade} {a : Action} {price : ℚ} {comment : String}
    (h : CInv cfg st row.ts)
    (hact : (getAssoc st.activeTrades row.symbol).isSome = true)
    (ha : a ≠ .buy) :
    CInv cfg (closeDeal cfg st row trade a price comment) row.ts := by
  obtain ⟨hA, hB1, hB2, hC, hE⟩ := h
  obtain ⟨ev, hev, hevact, hts, hsym2, hat, hlct, hcand⟩ :=
    closeDeal_fields cfg st row trade a price comment
  refine ⟨?_, ?_, ?_, ?_, ?_⟩
  · rw [hev, List.pairwise_append]
    refine ⟨hA, List.pairwise_singleton _ _, ?_⟩
    intro x hx b hb
    rw [List.mem_singleton.1 hb]
    intro _ hbuy _
    rw [hevact] at hbuy
    exact absurd hbuy ha
  · intro s t2 ht2
    rw [hlct] at ht2
    by_cases hs : row.symbol = s
    · rw [← hs, getAssoc_updAssoc_self] at ht2
      injection ht2 with ht2
      exact le_of_eq ht2.symm
    · rw [getAssoc_updAssoc_ne _ _ hs] at ht2
      exact hB1 s t2 ht2
  · intro e he hexit
    rw [hev] at he
    rw [hlct]
    rcases List.mem_append.1 he with h1 | h2
    · obtain ⟨t2, hget, hle⟩ := hB2 e h1 hexit
      by_cases hs : row.symbol = e.symbol
      · refine ⟨row.ts, by rw [← hs, getAssoc_updAssoc_self], ?_⟩
        exact le_trans hle (hB1 _ t2 hget)
      · exact ⟨t2, by rw [getAssoc_updAssoc_ne _ _ hs]; exact hget, hle⟩
    · rw [List.mem_singleton.1 h2]
      refine ⟨row.ts, ?_, ?_⟩
      · rw [hsym2, getAssoc_updAssoc_self]
      · rw [hts]
  · intro c hc e he hexit hsym
    rw [hcand] at hc
    rw [hev] at he
    rcases List.mem_append.1 he with h1 | h2
    · exact hC c hc e h1 hexit hsym
    · exfalso
      rw [List.mem_singleton.1 h2] at hsym
      have hnone := hE c hc
      rw [← hsym, hsym2] at hnone
      rw [hnone] at hact
      exact Bool.noConfusion (show false = true from hact)
  · intro c hc
    rw [hcand] at hc
    rw [hat]
    by_cases hs : row.symbol = c.symbol
    · exfalso
      have hnone := hE c hc
      rw [← hs] at hnone
      rw [hnone] at hact
      exact Bool.noConfusion (show false = true from hact)
    · rw [getAssoc_delAssoc_ne _ hs]
      exact hE c hc

lemma cinv_of_append {cfg : Config} {st st' : KernelState} {lb : ℚ}
    (h : CInv cfg st lb) (l : List TradeEvent)
    (hev : st'.events = st.events ++ l)
    (hne : ∀ e ∈ l, e.action ≠ .buy ∧ e.action.isExitAction = false)
    (hlct : st'.lastCloseTime = st.lastCloseTime)
    (hcand : st'.currentCandidates = st.currentCandidates)
    (hat : ∀ s, getAssoc st.activeTrades s = none →
      getAssoc st'.activeTrades s = none) :
    CInv cfg st' lb := by
  obtain ⟨hA, hB1, hB2, hC, hE⟩ := h
  refine ⟨?_, ?_, ?_, ?_, ?_⟩
  · rw [hev]
    refine pairwise_append_of_right hA ?_
    intro b hb a2 _ hbuy _
    exact absurd hbuy (hne b hb).1
  · intro s t ht
    rw [hlct] at ht
    exact hB1 s t ht
  · intro e he hexit
    rw [hev] at he
    rw [hlct]
    rcases List.mem_append.1 he with h1 | h2
    · exact hB2 e h1 hexit
    · rw [(hne e h2).2] at hexit
      exact Bool.noConfusion hexit
  · intro c hc e he hexit hsym
    rw [hcand] at hc
    rw [hev] at he
    rcases List.mem_append.1 he with h1 | h2
    · exact hC c hc e h1 hexit hsym
    · rw [(hne e h2).2] at hexit
      exact Bool.noConfusion hexit
  · intro c hc
    rw [hcand] at hc
    exact hat c.symbol (hE c hc)

lemma cinv_hourHeartbeat {cfg : Config} {st : KernelState} {row : Row}
    {lb : ℚ} (h : CInv cfg st lb) : CInv cfg (hourHeartbeat st row) lb := by
  obtain ⟨l, hev, hl⟩ := hourHeartbeat_events st row
  have hp := hourHeartbeat_preserves st row
  refine cinv_of_append h l hev ?_ hp.2.2.2.2.2.1 hp.2.2.2.1 ?_
  · intro e he
    constructor
    · rw [hl e he]
      exact fun hx => Action.noConfusion hx
    · rw [hl e he]
      rfl
  · intro s hs
    rw [hp.2.2.1]
    exact hs

lemma cinv_soLadder {cfg : Config} {st : KernelState} {row : Row}
    {prev : Option Row} {trade : Trade} {lb : ℚ} (h : CInv cfg st lb)
    (hact : (getAssoc st.activeTrades row.symbol).isSome = true) :
    CInv cfg (soLadder cfg st row prev trade).1 lb := by
  unfold soLadder
  dsimp only
  repeat' split
  all_goals try exact h
  all_goals (
    obtain ⟨⟨l, hev, hl⟩, hcnd⟩ :=
      execSoFills_events_cands cfg row _ _ st trade trade.lastSoSize
    refine cinv_of_append h l hev ?_
      (execSoFills_lct cfg row _ _ st trade trade.lastSoSize) hcnd ?_
    · intro e he
      obtain ⟨m, hm⟩ := hl e he
      constructor
      · rw [hm]
        exact fun hx => Action.noConfusion hx
      · rw [hm]
        rfl
    · intro s hs
      by_cases hsr : row.symbol = s
      · exfalso
        rw [hsr] at hact
        rw [hs] at hact
        exact Bool.noConfusion (show false = true from hact)
      · rw [execSoFills_activeTrades, getAssoc_updAssoc_ne _ _ hsr]
        exact hs)

lemma cinv_activeBranch {cfg : Config} {st : KernelState} {row : Row}
    {prev : Option Row} {trade : Trade} (h : CInv cfg st row.ts)
    (hact : (getAssoc st.activeTrades row.symbol).isSome = true) :
    CInv cfg (activeBranch cfg st row prev trade).1 row.ts := by
  have hp := hourHeartbeat_preserves st row
  have h1 : CInv cfg (hourHeartbeat st row) row.ts := cinv_hourHeartbeat h
  have hact1 : (getAssoc (hourHeartbeat st row).activeTrades
      row.symbol).isSome = true := by
    rw [hp.2.2.1]
    exact hact
  unfold activeBranch
  dsimp only
  repeat' split
  all_goals first
    | exact cinv_closeDeal h hact (by decide)
    | exact cinv_closeDeal h1 hact1 (by decide)
    | exact h1
    | exact cinv_soLadder h1 hact1

lemma cinv_buffer {cfg : Config} {st : KernelState} {row : Row}
    (h : CInv cfg st row.ts)
    (hgate : cooldownSkip cfg st row = false)
    (hA : getAssoc st.activeTrades row.symbol = none) :
    CInv cfg
      { st with currentCandidates := st.currentCandidates ++ [row] }
      row.ts := by
  obtain ⟨hA1, hB1, hB2, hC, hE⟩ := h
  refine ⟨hA1, hB1, hB2, ?_, ?_⟩
  · intro c hc e he hexit hsym
    rcases List.mem_append.1 hc with h1 | h2
    · exact hC c h1 e he hexit hsym
    · rw [List.mem_singleton.1 h2] at hsym ⊢
      obtain ⟨t, hget, hle⟩ := hB2 e he hexit
      rw [hsym] at hget
      unfold cooldownSkip at hgate
      rw [hget] at hgate
      have hlt := of_decide_eq_false hgate
      rw [not_lt] at hlt
      linarith
  · intro c hc
    rcases List.mem_append.1 hc with h1 | h2
    · exact hE c h1
    · rw [List.mem_singleton.1 h2]
      exact hA

lemma cinv_stepTail {cfg : Config} {row : Row} {prevRow : Option Row}
    {st : KernelState} (h : CInv cfg st row.ts)
    (hgate : cooldownSkip cfg st row = false) :
    CInv cfg (stepTail cfg row prevRow st) row.ts := by
  unfold stepTail
  dsimp only
  cases hA : getAssoc st.activeTrades row.symbol with
  | none =>
    dsimp only
    split
    · split
      · rename_i h2
        simp at h2
      · split
        · exact cinv_of_eq (cinv_buffer h hgate hA) rfl rfl rfl rfl
        · exact cinv_of_eq (cinv_buffer h hgate hA) rfl rfl rfl rfl
    · split
      · rename_i h2
        simp at h2
      · split
        · exact cinv_of_eq h rfl rfl rfl rfl
        · exact cinv_of_eq h rfl rfl rfl rfl
  | some trade =>
    dsimp only
    have hB : CInv cfg (activeBranch cfg st row prevRow trade).1 row.ts :=
      cinv_activeBranch h (by rw [hA]; rfl)
    split
    · exact hB
    · split
      · exact cinv_of_eq hB rfl rfl rfl rfl
      · exact cinv_of_eq hB rfl rfl rfl rfl

lemma cinv_admitPhase {cfg : Config} {st : KernelState} {row : Row} {lb : ℚ}
    (h : CInv cfg st lb) : CInv cfg (admitPhase cfg row st) lb := by
  unfold admitPhase
  repeat' split
  all_goals first
    | exact h
    | exact cinv_of_eq h rfl rfl rfl rfl
    | exact cinv_of_eq (cinv_admitCandidates _ h) rfl rfl rfl rfl

lemma cinv_stepRow {cfg : Config} {st : KernelState} {row : Row} {lb : ℚ}
    (h : CInv cfg st lb) (hlb : lb ≤ row.ts) :
    CInv cfg (stepRow cfg st row) row.ts := by
  have hm := cinv_mono h hlb
  rw [stepRow_decomp]
  split
  · exact hm
  split
  · exact cinv_of_eq hm rfl rfl rfl rfl
  rename_i hg1 hg2
  have hgate : cooldownSkip cfg st row = false := by
    revert hg2
    cases cooldownSkip cfg st row <;> simp
  have h2 : CInv cfg (admitPhase cfg row
      { st with
        lastRowBySymbol := updAssoc st.lastRowBySymbol row.symbol row,
        lastClose := updAssoc st.lastClose row.symbol row.close }) row.ts :=
    cinv_admitPhase (cinv_of_eq hm rfl rfl rfl rfl)
  have hgate2 : cooldownSkip cfg (admitPhase cfg row
      { st with
        lastRowBySymbol := updAssoc st.lastRowBySymbol row.symbol row,
        lastClose := updAssoc st.lastClose row.symbol row.close }) row = false := by
    rw [cooldownSkip_congr ((admitPhase_lct cfg row _).trans rfl)]
    exact hgate
  exact cinv_stepTail h2 hgate2

lemma cinv_initState (cfg : Config) (lb : ℚ) : CInv cfg (initState cfg) lb := by
  refine ⟨List.Pairwise.nil, ?_, ?_, ?_, ?_⟩
  · intro s t ht
    exact Option.noConfusion ht
  · intro e he _
    exact absurd he (List.not_mem_nil e)
  · intro c hc
    exact absurd hc (List.not_mem_nil c)
  · intro c hc
    exact absurd hc (List.not_mem_nil c)

lemma cinv_foldl_stepRow {cfg : Config} :
    ∀ rows : List Row, rows.Pairwise (fun a b => a.ts ≤ b.ts) →
    ∀ (st : KernelState) (lb : ℚ), CInv cfg st lb →
      (∀ r ∈ rows, lb ≤ r.ts) →
      ∃ lb', CInv cfg (rows.foldl (stepRow cfg) st) lb' := by
  intro rows
  induction rows with
  | nil =>
    intro _ st lb h _
    exact ⟨lb, h⟩
  | cons r rs ih =>
    intro hp st lb h hlb
    rw [List.pairwise_cons] at hp
    rw [List.foldl_cons]
    exact ih hp.2 _ r.ts (cinv_stepRow h (hlb r (List.mem_cons_self r rs))) hp.1

lemma cooldown_pairwise_runFirstPass {cfg : Config} {rows : List Row}
    (hs : rows.Pairwise (fun a b => a.ts ≤ b.ts)) :
    (runFirstPass cfg rows).events.Pairwise (cooldownOK cfg.cooldown) := by
  cases rows with
  | nil => exact List.Pairwise.nil
  | cons r rs =>
    rw [List.pairwise_cons] at hs
    have hbound : ∀ x ∈ r :: rs, r.ts ≤ x.ts := by
      intro x hx
      rcases List.mem_cons.1 hx with h1 | h2
      · subst h1
        exact le_refl _
      · exact hs.1 x h2
    obtain ⟨lb', h⟩ := cinv_foldl_stepRow (r :: rs)
      (List.pairwise_cons.2 hs) (initState cfg) r.ts
      (cinv_initState cfg r.ts) hbound
    unfold runFirstPass
    dsimp only
    split
    · exact h.1
    · exact (cinv_admitCandidates _ h).1

/-- C7, confirmed: on a timestamp-sorted row stream the first-pass
journal is pairwise cooldown-separated (no BUY of a symbol comes at less
than `cooldown_between_deals` minutes after any earlier deal-closing
event of that symbol); the cooldown gate skips a bar exactly when the
symbol has a stamped close time less than the cooldown before the bar;
and a bar at (or after) exactly the cooldown boundary is not skipped. -/
theorem claim7_cooldown_law (cfg : Config) (rows : List Row)
    (hs : rows.Pairwise (fun a b => a.ts ≤ b.ts)) :
    (runFirstPass cfg rows).events.Pairwise (cooldownOK cfg.cooldown) ∧
    (∀ (st : KernelState) (row : Row),
      cooldownSkip cfg st row = true ↔
        ∃ t, getAssoc st.lastCloseTime row.symbol = some t ∧
          row.ts - t < cfg.cooldown) ∧
    (∀ (st : KernelState) (row : Row) (t : ℚ),
      getAssoc st.lastCloseTime row.symbol = some t →
      t + cfg.cooldown ≤ row.ts → cooldownSkip cfg st row = false) := by
  refine ⟨cooldown_pairwise_runFirstPass hs, ?_, ?_⟩
  · intro st row
    unfold cooldownSkip
    cases hget : getAssoc st.lastCloseTime row.symbol with
    | none => simp
    | some t =>
      simp only [decide_eq_true_eq]
      constructor
      · intro hlt
        exact ⟨t, rfl, hlt⟩
      · rintro ⟨t2, ht2, hlt⟩
        injection ht2 with ht2
        rw [ht2]
        exact hlt
  · intro st row t hget hle
    unfold cooldownSkip
    rw [hget, decide_eq_false_iff_not, not_lt]
    linarith

theorem claim7_cooldown_law_witness :
    ([] : List Row).Pairwise (fun a b => a.ts ≤ b.ts) ∧
    (runFirstPass tieCfg []).events.Pairwise (cooldownOK tieCfg.cooldown) :=
  ⟨List.Pairwise.nil,
    (claim7_cooldown_law tieCfg [] List.Pairwise.nil).1⟩

end Backtest
